import Mathlib

/-!
Shallow embedding of the WEditor RGA CRDT core (src/crdt/rga.py) and the
parts of the server pipeline (src/server/main.py) that the specification
talks about.

Modelling conventions:
* Python floats (logical clocks) are modelled as rationals; `time.time()`
  inputs are explicit parameters.
* Python dicts are association lists in insertion order: assigning to an
  existing key replaces the value in place, a new key is appended.
* Python exceptions are modelled with `Except`; functions that may raise
  return the post-state explicitly, since validation happens before any
  mutation in the source.
-/

namespace WEditor

/-- ElementID = Tuple[float, str] from src/crdt/rga.py. -/
abbrev ElementID := Rat × String

/-- Python tuple comparison on (clock, site_id): lexicographic. -/
def idLe (a b : ElementID) : Prop :=
  a.1 < b.1 ∨ (a.1 = b.1 ∧ a.2 ≤ b.2)

instance : DecidableRel idLe := fun a b => by
  unfold idLe; infer_instance

/-- Element record from src/crdt/rga.py (class Element). `value` is `none`
for the sentinel; `predecessor_id` is `none` for the sentinel. -/
structure Element where
  id : ElementID
  value : Option String
  predecessor_id : Option ElementID
  is_tombstone : Bool
deriving DecidableEq, Repr

/-- The element store `elements_by_id`: a Python dict in insertion order. -/
abbrev Store := List (ElementID × Element)

/-- Generic Python-dict lookup (`d.get(k)` / `k in d`). -/
def alistLookup {κ ν : Type} [DecidableEq κ] (s : List (κ × ν)) (k : κ) : Option ν :=
  match s with
  | [] => none
  | (k', v) :: rest => if k' = k then some v else alistLookup rest k

/-- Generic Python-dict assignment `d[k] = v`: replace in place or append. -/
def alistInsert {κ ν : Type} [DecidableEq κ] (s : List (κ × ν)) (k : κ) (v : ν) :
    List (κ × ν) :=
  match s with
  | [] => [(k, v)]
  | (k', v') :: rest =>
    if k' = k then (k, v) :: rest else (k', v') :: alistInsert rest k v

/-- In-place mutation `elements_by_id[k].is_tombstone = True`. -/
def setTombstone (s : Store) (k : ElementID) : Store :=
  s.map (fun kv => if kv.1 = k then (kv.1, { kv.2 with is_tombstone := true }) else kv)

/-- RGA.START_SENTINEL_ID = (-1.0, "START"). -/
def START_SENTINEL_ID : ElementID := (-1, "START")

/-- The sentinel element created in RGA.__init__. -/
def sentinelElement : Element :=
  { id := START_SENTINEL_ID, value := none, predecessor_id := none, is_tombstone := false }

/-- The store of a fresh engine: only the sentinel. -/
def initialStore : Store := [(START_SENTINEL_ID, sentinelElement)]

/-- All stored elements, in dict insertion order (`elements_by_id.values()`). -/
def storeValues (s : Store) : List Element := s.map Prod.snd

/-- Comparison used when sorting sibling lists by `x.id`. -/
def elemLe (a b : Element) : Prop := idLe a.id b.id

instance : DecidableRel elemLe := fun a b => by
  unfold elemLe; infer_instance

instance : IsTotal Element elemLe := by
  constructor
  intro a b
  rcases lt_trichotomy a.id.1 b.id.1 with h | h | h
  · exact Or.inl (Or.inl h)
  · rcases le_total a.id.2 b.id.2 with h2 | h2
    · exact Or.inl (Or.inr ⟨h, h2⟩)
    · exact Or.inr (Or.inr ⟨h.symm, h2⟩)
  · exact Or.inr (Or.inl h)

instance : IsTrans Element elemLe := by
  constructor
  intro a b c hab hbc
  rcases hab with h1 | ⟨e1, l1⟩
  · rcases hbc with h2 | ⟨e2, l2⟩
    · exact Or.inl (lt_trans h1 h2)
    · exact Or.inl (e2 ▸ h1)
  · rcases hbc with h2 | ⟨e2, l2⟩
    · exact Or.inl (e1 ▸ h2)
    · exact Or.inr ⟨e1.trans e2, le_trans l1 l2⟩

/-- Sibling list of `k`, sorted ascending by id: this is the net effect, in
pop order, of `pred_to_succ_map` (sorted ascending at build time, re-sorted
descending before being pushed onto the LIFO stack in
`_get_ordered_visible_elements`). -/
def successorsSorted (s : Store) (k : ElementID) : List Element :=
  List.insertionSort elemLe
    ((storeValues s).filter (fun e => decide (e.predecessor_id = some k)))

/-- Number of store keys not yet visited; first component of the traversal
termination measure. -/
def unvisitedCount (s : Store) (visited : List ElementID) : Nat :=
  ((s.map Prod.fst).dedup.filter (fun k => decide (k ∉ visited))).length

theorem unvisitedCount_mono (s : Store) (visited : List ElementID) (k : ElementID) :
    unvisitedCount s (k :: visited) ≤ unvisitedCount s visited := by
  unfold unvisitedCount
  apply List.Sublist.length_le
  apply List.monotone_filter_right
  intro a ha
  simp only [decide_eq_true_eq, List.mem_cons] at *
  tauto

theorem unvisitedCount_lt (s : Store) (visited : List ElementID) (k : ElementID)
    (hk : k ∈ s.map Prod.fst) (hnv : k ∉ visited) :
    unvisitedCount s (k :: visited) < unvisitedCount s visited := by
  unfold unvisitedCount
  have hsub : ((s.map Prod.fst).dedup.filter (fun a => decide (a ∉ k :: visited))).Sublist
      ((s.map Prod.fst).dedup.filter (fun a => decide (a ∉ visited))) := by
    apply List.monotone_filter_right
    intro a ha
    simp only [decide_eq_true_eq, List.mem_cons] at *
    tauto
  rcases Nat.lt_or_ge (((s.map Prod.fst).dedup.filter (fun a => decide (a ∉ k :: visited))).length)
      (((s.map Prod.fst).dedup.filter (fun a => decide (a ∉ visited))).length) with h | h
  · exact h
  · exfalso
    have heq := hsub.eq_of_length_le h
    have hkmem : k ∈ (s.map Prod.fst).dedup.filter (fun a => decide (a ∉ visited)) := by
      simp only [List.mem_filter, List.mem_dedup, decide_eq_true_eq]
      exact ⟨hk, hnv⟩
    rw [← heq] at hkmem
    simp only [List.mem_filter, decide_eq_true_eq] at hkmem
    exact hkmem.2 (List.mem_cons_self k visited)

theorem unvisitedCount_eq_of_not_key (s : Store) (visited : List ElementID) (k : ElementID)
    (hk : k ∉ s.map Prod.fst) :
    unvisitedCount s (k :: visited) = unvisitedCount s visited := by
  unfold unvisitedCount
  congr 1
  apply List.filter_congr
  intro a ha
  have hak : a ≠ k := by
    intro h
    subst h
    exact hk (List.mem_dedup.mp ha)
  simp only [decide_eq_decide, List.mem_cons]
  tauto

theorem lookup_mem_keys {κ ν : Type} [DecidableEq κ] (s : List (κ × ν)) (k : κ) (v : ν)
    (h : alistLookup s k = some v) : k ∈ s.map Prod.fst := by
  induction s with
  | nil => simp [alistLookup] at h
  | cons hd tl ih =>
    rw [alistLookup] at h
    by_cases hk : hd.1 = k
    · simp [hk]
    · simp only [hk, if_false] at h
      simp [ih h]

theorem mem_keys_lookup_isSome {κ ν : Type} [DecidableEq κ] (s : List (κ × ν)) (k : κ)
    (h : k ∈ s.map Prod.fst) : ∃ v, alistLookup s k = some v := by
  induction s with
  | nil => simp at h
  | cons hd tl ih =>
    rw [alistLookup]
    by_cases hcase : hd.1 = k
    · exact ⟨hd.2, by simp [hcase]⟩
    · simp only [List.map_cons, List.mem_cons] at h
      rcases h with h | h
      · exact absurd h.symm hcase
      · simpa [hcase] using ih h

/-- The iterative DFS of `_get_ordered_visible_elements`: the stack is
head-on-top, `visited_during_sort` is a list.  Popping an unvisited id marks
it visited, records its element (if found), and pushes its not-yet-visited
successors so that the smallest id is popped next. -/
def rgaTraverse (s : Store) : List ElementID → List ElementID → List Element
  | [], _ => []
  | k :: stack, visited =>
    if k ∈ visited then rgaTraverse s stack visited
    else
      match h : alistLookup s k with
      | none => rgaTraverse s stack (k :: visited)
      | some e =>
        e :: rgaTraverse s
          ((((successorsSorted s k).filter
              (fun e' => decide (e'.id ∉ (k :: visited)))).map Element.id) ++ stack)
          (k :: visited)
termination_by stack visited => (unvisitedCount s visited, stack.length)
decreasing_by
  · exact Prod.Lex.right _ (Nat.lt_succ_self _)
  · rename_i hk
    rw [unvisitedCount_eq_of_not_key s visited k]
    · exact Prod.Lex.right _ (Nat.lt_succ_self _)
    · intro hmem
      rcases mem_keys_lookup_isSome s k hmem with ⟨v, hv⟩
      rw [h] at hv
      cases hv
  · rename_i hk
    exact Prod.Lex.left _ _ (unvisitedCount_lt s visited k (lookup_mem_keys s k _ h) hk)

/-- Visible projection: drop tombstones and the sentinel
(`_get_ordered_visible_elements`, final filter). -/
def getOrderedVisibleElements (s : Store) : List Element :=
  (rgaTraverse s [START_SENTINEL_ID] []).filter
    (fun e => !e.is_tombstone && decide (e.id ≠ START_SENTINEL_ID))

/-- RGA.get_value: concatenation of the visible elements' non-None values. -/
def getValue (s : Store) : String :=
  String.join ((getOrderedVisibleElements s).filterMap Element.value)

/-- Engine state: `site_id`, `elements_by_id` and `_local_clock`. -/
structure RGAState where
  site_id : String
  elements_by_id : Store
  local_clock : Rat
deriving DecidableEq, Repr

/-- RGA.__init__ with an explicit site id. -/
def rgaInit (site : String) : RGAState :=
  { site_id := site, elements_by_id := initialStore, local_clock := 0 }

/-- Python exceptions raised by the engine. -/
inductive PyErr where
  | valueError (msg : String)
  | indexError (msg : String)
  | runtimeError (msg : String)
  | typeError (msg : String)
deriving DecidableEq, Repr

/-- Operations returned by local_insert / local_delete and consumed by
apply_remote_operation (here in their parsed, well-typed form: the insert
carries the element dictionary, the delete carries the id tuple). -/
inductive Operation where
  | insert (element : Element)
  | delete (element_id : ElementID)
  | noop (reason : String)
deriving DecidableEq, Repr

/-- RGA._generate_id: bump the local clock to
`max(_local_clock + 0.000001, time.time())`; `ts` is the wall-clock reading. -/
def generateId (st : RGAState) (ts : Rat) : ElementID × RGAState :=
  let c := max (st.local_clock + 1/1000000) ts
  ((c, st.site_id), { st with local_clock := c })

/-- Predecessor determination in RGA.local_insert: HEAD at index 0, the
visible element at index-1 when 1 <= index <= len, IndexError beyond. -/
def localInsertPred (visible : List Element) (index : Int) : Except PyErr ElementID :=
  if index = 0 then .ok START_SENTINEL_ID
  else if index ≤ visible.length then
    match visible.get? (index - 1).toNat with
    | some e => .ok e.id
    | none => .error (.indexError "Insertion index out of bounds")
  else .error (.indexError "Insertion index out of bounds")

/-- RGA.local_insert.  `ts` and `ts2` are the wall-clock readings of the
first and (collision-path) second `_generate_id` call.  Always returns the
post-state: raises happen before any store mutation, except that the
collision path has already advanced the clock. -/
def localInsert (st : RGAState) (index : Int) (value : String) (ts ts2 : Rat) :
    Except PyErr Operation × RGAState :=
  if value.length ≠ 1 then
    (.error (.valueError "Insertion value must be a single character string."), st)
  else if index < 0 then
    (.error (.indexError "Index cannot be negative"), st)
  else
    let visible := getOrderedVisibleElements st.elements_by_id
    match localInsertPred visible index with
    | .error e => (.error e, st)
    | .ok predecessorId =>
      let (newId, st1) := generateId st ts
      match alistLookup st1.elements_by_id newId with
      | some _ =>
        let (newId2, st2) := generateId st1 ts2
        match alistLookup st2.elements_by_id newId2 with
        | some _ => (.error (.runtimeError "Persistent Element ID collision"), st2)
        | none =>
          let newElement : Element :=
            { id := newId2, value := some value, predecessor_id := some predecessorId,
              is_tombstone := false }
          (.ok (.insert newElement),
            { st2 with elements_by_id := alistInsert st2.elements_by_id newId2 newElement })
      | none =>
        let newElement : Element :=
          { id := newId, value := some value, predecessor_id := some predecessorId,
            is_tombstone := false }
        (.ok (.insert newElement),
          { st1 with elements_by_id := alistInsert st1.elements_by_id newId newElement })

/-- RGA.local_delete.  Out-of-range indices raise IndexError; the noop
returns cover only the sentinel guard and the store-miss path. -/
def localDelete (st : RGAState) (index : Int) : Except PyErr Operation × RGAState :=
  if index < 0 then
    (.error (.indexError "Index cannot be negative"), st)
  else
    let visible := getOrderedVisibleElements st.elements_by_id
    if visible.isEmpty then
      (.error (.indexError "Cannot delete from empty sequence"), st)
    else if index ≥ (visible.length : Int) then
      (.error (.indexError "Deletion index out of bounds"), st)
    else
      match visible.get? index.toNat with
      | none => (.error (.indexError "Deletion index out of bounds"), st)
      | some elementToDelete =>
        match alistLookup st.elements_by_id elementToDelete.id with
        | some _ =>
          if elementToDelete.id = START_SENTINEL_ID then
            (.ok (.noop "Cannot delete sentinel"), st)
          else
            (.ok (.delete elementToDelete.id),
              { st with elements_by_id := setTombstone st.elements_by_id elementToDelete.id })
        | none => (.ok (.noop "Element not found"), st)

/-- RGA.apply_remote_operation on the store, for well-typed operations
(ids already tuples; the wire-level behaviour on raw dictionaries is
modelled separately below). -/
def applyRemoteOperation (s : Store) (op : Operation) : Store :=
  match op with
  | .insert e =>
    match alistLookup s e.id with
    | some existing =>
      if !existing.is_tombstone && e.is_tombstone then setTombstone s e.id else s
    | none =>
      match e.predecessor_id with
      | some p =>
        if alistLookup s p = none then s else alistInsert s e.id e
      | none => alistInsert s e.id e
  | .delete k =>
    if k = START_SENTINEL_ID then s
    else
      match alistLookup s k with
      | some _ => setTombstone s k
      | none => s
  | .noop _ => s

/-- apply_remote_operation lifted to the engine state (it never touches
`site_id` or `_local_clock`). -/
def applyRemoteState (st : RGAState) (op : Operation) : RGAState :=
  { st with elements_by_id := applyRemoteOperation st.elements_by_id op }

/-- Folding a list of remote operations over a store. -/
def applyOps (s : Store) (ops : List Operation) : Store :=
  ops.foldl applyRemoteOperation s

/-! ### Association-list lemmas -/

@[simp]
theorem alistLookup_nil {κ ν : Type} [DecidableEq κ] (k : κ) :
    alistLookup ([] : List (κ × ν)) k = none := rfl

@[simp]
theorem alistLookup_cons {κ ν : Type} [DecidableEq κ] (hd : κ × ν) (tl : List (κ × ν)) (k : κ) :
    alistLookup (hd :: tl) k = if hd.1 = k then some hd.2 else alistLookup tl k := rfl

@[simp]
theorem alistInsert_nil {κ ν : Type} [DecidableEq κ] (k : κ) (v : ν) :
    alistInsert ([] : List (κ × ν)) k v = [(k, v)] := rfl

@[simp]
theorem alistInsert_cons {κ ν : Type} [DecidableEq κ] (hd : κ × ν) (tl : List (κ × ν))
    (k : κ) (v : ν) :
    alistInsert (hd :: tl) k v =
      if hd.1 = k then (k, v) :: tl else hd :: alistInsert tl k v := rfl

@[simp]
theorem setTombstone_nil (k : ElementID) : setTombstone [] k = [] := rfl

@[simp]
theorem setTombstone_cons (hd : ElementID × Element) (tl : Store) (k : ElementID) :
    setTombstone (hd :: tl) k =
      (if hd.1 = k then (hd.1, { hd.2 with is_tombstone := true }) else hd) ::
        setTombstone tl k := rfl

theorem lookup_alistInsert_self {κ ν : Type} [DecidableEq κ] (s : List (κ × ν)) (k : κ) (v : ν) :
    alistLookup (alistInsert s k v) k = some v := by
  induction s with
  | nil => simp
  | cons hd tl ih =>
    by_cases h : hd.1 = k
    · simp [h]
    · simp [h, ih]

theorem lookup_alistInsert_ne {κ ν : Type} [DecidableEq κ] (s : List (κ × ν)) (k k' : κ) (v : ν)
    (h : k' ≠ k) : alistLookup (alistInsert s k v) k' = alistLookup s k' := by
  have hkk : ¬ (k = k') := fun he => h he.symm
  induction s with
  | nil => simp [hkk]
  | cons hd tl ih =>
    by_cases hc : hd.1 = k
    · simp [hc, hkk]
    · simp [hc, ih]

theorem lookup_none_iff_not_key {κ ν : Type} [DecidableEq κ] (s : List (κ × ν)) (k : κ) :
    alistLookup s k = none ↔ k ∉ s.map Prod.fst := by
  constructor
  · intro h hk
    rcases mem_keys_lookup_isSome s k hk with ⟨v, hv⟩
    rw [h] at hv
    cases hv
  · intro h
    cases he : alistLookup s k with
    | none => rfl
    | some v => exact absurd (lookup_mem_keys s k v he) h

theorem keys_setTombstone (s : Store) (k : ElementID) :
    (setTombstone s k).map Prod.fst = s.map Prod.fst := by
  unfold setTombstone
  rw [List.map_map]
  apply List.map_congr_left
  intro kv _
  by_cases h : kv.1 = k <;> simp [h]

theorem lookup_setTombstone_self (s : Store) (k : ElementID) (e : Element)
    (h : alistLookup s k = some e) :
    alistLookup (setTombstone s k) k = some { e with is_tombstone := true } := by
  induction s with
  | nil => simp at h
  | cons hd tl ih =>
    by_cases hc : hd.1 = k
    · simp only [alistLookup_cons, if_pos hc] at h
      cases h
      simp [hc]
    · simp only [alistLookup_cons, if_neg hc] at h
      simp [hc, ih h]

theorem lookup_setTombstone_ne (s : Store) (k k' : ElementID) (h : k' ≠ k) :
    alistLookup (setTombstone s k) k' = alistLookup s k' := by
  have hkk : ¬ (k = k') := fun he => h he.symm
  induction s with
  | nil => simp
  | cons hd tl ih =>
    by_cases hc : hd.1 = k
    · simp [hc, hkk, ih]
    · by_cases hc' : hd.1 = k'
      · simp [hc, hc', h]
      · simp [hc, hc', ih]

theorem setTombstone_of_lookup_none (s : Store) (k : ElementID)
    (h : alistLookup s k = none) : setTombstone s k = s := by
  have hk : k ∉ s.map Prod.fst := (lookup_none_iff_not_key s k).mp h
  unfold setTombstone
  trans (List.map id s)
  · apply List.map_congr_left
    intro kv hkv
    have hne : kv.1 ≠ k := by
      intro he
      exact hk (he ▸ List.mem_map_of_mem Prod.fst hkv)
    simp [hne]
  · exact List.map_id s

theorem keys_alistInsert_of_none {κ ν : Type} [DecidableEq κ] (s : List (κ × ν)) (k : κ) (v : ν)
    (h : alistLookup s k = none) :
    (alistInsert s k v).map Prod.fst = s.map Prod.fst ++ [k] := by
  induction s with
  | nil => simp [alistInsert]
  | cons hd tl ih =>
    rw [alistLookup] at h
    by_cases hc : hd.1 = k
    · rw [if_pos hc] at h
      cases h
    · rw [if_neg hc] at h
      rw [alistInsert, if_neg hc]
      simp [ih h]

/-- Well-formed store: dict keys distinct (automatic for a Python dict) and
each element stored under its own id (true of every store the engine
builds). -/
def StoreOk (s : Store) : Prop :=
  (s.map Prod.fst).Nodup ∧ ∀ kv ∈ s, kv.2.id = kv.1

theorem storeOk_initial : StoreOk initialStore := by
  constructor
  · simp [initialStore]
  · intro kv hkv
    simp only [initialStore, List.mem_singleton] at hkv
    subst hkv
    rfl

theorem storeOk_setTombstone (s : Store) (k : ElementID) (h : StoreOk s) :
    StoreOk (setTombstone s k) := by
  constructor
  · rw [keys_setTombstone]
    exact h.1
  · intro kv hkv
    unfold setTombstone at hkv
    rcases List.mem_map.mp hkv with ⟨kv0, hkv0, heq⟩
    by_cases hc : kv0.1 = k
    · rw [if_pos hc] at heq
      subst heq
      exact h.2 kv0 hkv0
    · rw [if_neg hc] at heq
      subst heq
      exact h.2 kv0 hkv0

theorem storeOk_alistInsert (s : Store) (e : Element)
    (h : StoreOk s) (hnone : alistLookup s e.id = none) :
    StoreOk (alistInsert s e.id e) := by
  constructor
  · rw [keys_alistInsert_of_none s e.id e hnone]
    rw [List.nodup_append]
    refine ⟨h.1, List.nodup_singleton _, ?_⟩
    intro a ha hb
    simp only [List.mem_singleton] at hb
    subst hb
    exact (lookup_none_iff_not_key s e.id).mp hnone ha
  · intro kv hkv
    have : alistInsert s e.id e = s ++ [(e.id, e)] := by
      have hk : e.id ∉ s.map Prod.fst := (lookup_none_iff_not_key s e.id).mp hnone
      clear hnone h hkv
      induction s with
      | nil => simp [alistInsert]
      | cons hd tl ih =>
        simp only [List.map_cons, List.mem_cons] at hk
        rw [alistInsert, if_neg (fun he => hk (Or.inl he.symm))]
        simp [ih (fun ht => hk (Or.inr ht))]
    rw [this] at hkv
    rcases List.mem_append.mp hkv with hmem | hmem
    · exact h.2 kv hmem
    · simp only [List.mem_singleton] at hmem
      subst hmem
      rfl

/-! ### Causally-ready delivery and the convergence invariant -/

/-- Head-of-list causal readiness: the integration conditions under which
apply_remote_operation does not drop the operation (duplicate inserts are
always ready; a fresh insert needs its predecessor present; a delete needs
its target present). -/
def readyOne (s : Store) (op : Operation) : Bool :=
  match op with
  | .insert e =>
    match alistLookup s e.id with
    | some _ => true
    | none =>
      match e.predecessor_id with
      | some p => (alistLookup s p).isSome
      | none => false
  | .delete k => (alistLookup s k).isSome
  | .noop _ => true

/-- Causally-ready delivery order: every operation finds its causal
dependencies present at the moment it is applied. -/
def causallyReadyFrom (s : Store) : List Operation → Bool
  | [] => true
  | op :: rest => readyOne s op && causallyReadyFrom (applyRemoteOperation s op) rest

/-- Well-formed emitted operation set: inserts never carry the sentinel id,
are emitted non-tombstoned and with a predecessor (exactly what
local_insert produces), and two inserts with the same id carry the same
element. -/
def wellFormedOps (S : List Operation) : Bool :=
  (S.all fun op =>
    match op with
    | .insert e =>
      decide (e.id ≠ START_SENTINEL_ID) && !e.is_tombstone && e.predecessor_id.isSome
    | _ => true) &&
  (S.all fun op1 => S.all fun op2 =>
    match op1, op2 with
    | .insert e1, .insert e2 => decide (e1.id = e2.id → e1 = e2)
    | _, _ => true)

/-- Some insert in `T` carries id `k`. -/
def HasIns (T : List Operation) (k : ElementID) : Prop :=
  ∃ e, Operation.insert e ∈ T ∧ e.id = k

/-- Some delete in `T` targets id `k`. -/
def HasDel (T : List Operation) (k : ElementID) : Prop :=
  Operation.delete k ∈ T

instance (T : List Operation) (k : ElementID) : Decidable (HasDel T k) := by
  unfold HasDel
  infer_instance

theorem hasIns_cons_insert (e : Element) (T : List Operation) (k : ElementID) :
    HasIns (Operation.insert e :: T) k ↔ e.id = k ∨ HasIns T k := by
  unfold HasIns
  constructor
  · rintro ⟨e', he', hid⟩
    rcases List.mem_cons.mp he' with heq | hmem
    · cases heq
      exact Or.inl hid
    · exact Or.inr ⟨e', hmem, hid⟩
  · rintro (h | ⟨e', he', hid⟩)
    · exact ⟨e, List.mem_cons_self _ _, h⟩
    · exact ⟨e', List.mem_cons_of_mem _ he', hid⟩

theorem hasIns_cons_other (op : Operation) (T : List Operation) (k : ElementID)
    (h : ∀ e, op ≠ Operation.insert e) :
    HasIns (op :: T) k ↔ HasIns T k := by
  unfold HasIns
  constructor
  · rintro ⟨e', he', hid⟩
    rcases List.mem_cons.mp he' with heq | hmem
    · exact absurd heq.symm (h e')
    · exact ⟨e', hmem, hid⟩
  · rintro ⟨e', he', hid⟩
    exact ⟨e', List.mem_cons_of_mem _ he', hid⟩

theorem hasDel_cons_delete (d : ElementID) (T : List Operation) (k : ElementID) :
    HasDel (Operation.delete d :: T) k ↔ d = k ∨ HasDel T k := by
  unfold HasDel
  rw [List.mem_cons]
  constructor
  · rintro (heq | hmem)
    · cases heq
      exact Or.inl rfl
    · exact Or.inr hmem
  · rintro (rfl | hmem)
    · exact Or.inl rfl
    · exact Or.inr hmem

theorem hasDel_cons_other (op : Operation) (T : List Operation) (k : ElementID)
    (h : op ≠ Operation.delete k) :
    HasDel (op :: T) k ↔ HasDel T k := by
  unfold HasDel
  rw [List.mem_cons]
  constructor
  · rintro (heq | hmem)
    · exact absurd heq.symm h
    · exact hmem
  · exact Or.inr

/-- The store determined, up to entry order, by the multiset of operations
integrated so far: the sentinel is untouched, an id is present exactly when
an insert for it has been applied, its fields come from that insert, and it
is tombstoned exactly when a delete for it has been applied. -/
def StoreMatches (s : Store) (T : List Operation) : Prop :=
  alistLookup s START_SENTINEL_ID = some sentinelElement ∧
  (∀ k, k ≠ START_SENTINEL_ID → ¬ HasIns T k → alistLookup s k = none) ∧
  (∀ e, Operation.insert e ∈ T → e.id ≠ START_SENTINEL_ID →
    alistLookup s e.id = some { e with is_tombstone := decide (HasDel T e.id) }) ∧
  (∀ k, k ≠ START_SENTINEL_ID → HasDel T k → HasIns T k)

theorem storeMatches_initial : StoreMatches initialStore [] := by
  refine ⟨rfl, ?_, ?_, ?_⟩
  · intro k hk _
    simp only [initialStore, alistLookup_cons, alistLookup_nil]
    rw [if_neg (fun he => hk he.symm)]
  · intro e he
    cases he
  · intro k _ hd
    cases hd

theorem wellFormedOps_insert_facts {S : List Operation} (h : wellFormedOps S = true)
    {e : Element} (hmem : Operation.insert e ∈ S) :
    e.id ≠ START_SENTINEL_ID ∧ e.is_tombstone = false ∧ e.predecessor_id.isSome = true := by
  unfold wellFormedOps at h
  rw [Bool.and_eq_true] at h
  have h1 := (List.all_eq_true.mp h.1) _ hmem
  simp only [Bool.and_eq_true, decide_eq_true_eq, Bool.not_eq_true'] at h1
  exact ⟨h1.1.1, h1.1.2, h1.2⟩

theorem wellFormedOps_functional {S : List Operation} (h : wellFormedOps S = true)
    {e1 e2 : Element} (h1 : Operation.insert e1 ∈ S) (h2 : Operation.insert e2 ∈ S)
    (hid : e1.id = e2.id) : e1 = e2 := by
  unfold wellFormedOps at h
  rw [Bool.and_eq_true] at h
  have hf := (List.all_eq_true.mp ((List.all_eq_true.mp h.2) _ h1)) _ h2
  simp only [decide_eq_true_eq] at hf
  exact hf hid

theorem element_eta_tomb (e : Element) (b : Bool) (h : e.is_tombstone = b) :
    { e with is_tombstone := b } = e := by
  cases e
  cases h
  rfl

theorem tomb_update_update (e : Element) (b c : Bool) :
    { ({ e with is_tombstone := b } : Element) with is_tombstone := c }
      = { e with is_tombstone := c } := rfl

theorem lookup_setTombstone_self_flat (s : Store) (k : ElementID) (e : Element) (b : Bool)
    (h : alistLookup s k = some { e with is_tombstone := b }) :
    alistLookup (setTombstone s k) k = some { e with is_tombstone := true } := by
  have h2 := lookup_setTombstone_self s k _ h
  rw [h2]

/-- One causally-ready integration step preserves the store
characterization. -/
theorem storeMatches_step {S : List Operation} (hwf : wellFormedOps S = true)
    {T : List Operation} (hT : ∀ op ∈ T, op ∈ S)
    {op : Operation} (hop : op ∈ S)
    {s : Store} (hm : StoreMatches s T)
    (hr : readyOne s op = true) :
    StoreMatches (applyRemoteOperation s op) (op :: T) := by
  obtain ⟨hm1, hm2, hm3, hm4⟩ := hm
  cases op with
  | insert e =>
    obtain ⟨hid, htomb, hpred⟩ := wellFormedOps_insert_facts hwf hop
    have hdel_iff : ∀ k, HasDel (Operation.insert e :: T) k ↔ HasDel T k :=
      fun k => hasDel_cons_other _ _ _ (fun hc => by cases hc)
    cases hl : alistLookup s e.id with
    | some existing =>
      have hstep : applyRemoteOperation s (.insert e) = s := by
        simp [applyRemoteOperation, hl, htomb]
      rw [hstep]
      have hins : HasIns T e.id := by
        by_contra hni
        rw [hm2 e.id hid hni] at hl
        cases hl
      refine ⟨hm1, ?_, ?_, ?_⟩
      · intro k hk hni
        rw [hasIns_cons_insert] at hni
        exact hm2 k hk (fun h => hni (Or.inr h))
      · intro e' he' hid'
        rcases List.mem_cons.mp he' with heq | hmem
        · injection heq with he
          subst he
          obtain ⟨e0, he0, hide0⟩ := hins
          have hee0 : e0 = e' := wellFormedOps_functional hwf (hT _ he0) hop hide0
          subst hee0
          rw [hm3 e0 he0 hid, decide_eq_decide.mpr (hdel_iff e0.id)]
        · rw [hm3 e' hmem hid', decide_eq_decide.mpr (hdel_iff e'.id)]
      · intro k hk hd
        rw [hdel_iff] at hd
        rw [hasIns_cons_insert]
        exact Or.inr (hm4 k hk hd)
    | none =>
      obtain ⟨p, hp⟩ := Option.isSome_iff_exists.mp hpred
      have hpready : (alistLookup s p).isSome = true := by
        simp only [readyOne, hl, hp] at hr
        exact hr
      obtain ⟨pe, hpe⟩ := Option.isSome_iff_exists.mp hpready
      have hstep : applyRemoteOperation s (.insert e) = alistInsert s e.id e := by
        simp [applyRemoteOperation, hl, hp, hpe]
      rw [hstep]
      have hni : ¬ HasIns T e.id := by
        rintro ⟨e0, he0, hid0⟩
        have hlook := hm3 e0 he0 (hid0 ▸ hid)
        rw [hid0, hl] at hlook
        cases hlook
      have hnd : ¬ HasDel T e.id := fun hd => hni (hm4 e.id hid hd)
      refine ⟨?_, ?_, ?_, ?_⟩
      · rw [lookup_alistInsert_ne _ _ _ _ (fun he => hid he.symm)]
        exact hm1
      · intro k hk hni'
        rw [hasIns_cons_insert] at hni'
        push_neg at hni'
        rw [lookup_alistInsert_ne _ _ _ _ (fun he => hni'.1 he.symm)]
        exact hm2 k hk hni'.2
      · intro e' he' hid'
        rcases List.mem_cons.mp he' with heq | hmem
        · injection heq with he
          subst he
          rw [lookup_alistInsert_self]
          have hdec : decide (HasDel (Operation.insert e' :: T) e'.id) = false := by
            rw [decide_eq_false_iff_not, hdel_iff]
            exact hnd
          rw [hdec, element_eta_tomb e' false htomb]
        · by_cases hke : e'.id = e.id
          · exact absurd ⟨e', hmem, hke⟩ hni
          · rw [lookup_alistInsert_ne _ _ _ _ hke]
            rw [hm3 e' hmem hid', decide_eq_decide.mpr (hdel_iff e'.id)]
      · intro k hk hd
        rw [hdel_iff] at hd
        rw [hasIns_cons_insert]
        exact Or.inr (hm4 k hk hd)
  | delete d =>
    have hins_iff : ∀ k, HasIns (Operation.delete d :: T) k ↔ HasIns T k :=
      fun k => hasIns_cons_other _ _ _ (fun e' hc => by cases hc)
    have hsome : (alistLookup s d).isSome = true := by
      simpa [readyOne] using hr
    by_cases hdh : d = START_SENTINEL_ID
    · subst hdh
      have hstep :
          applyRemoteOperation s (.delete START_SENTINEL_ID) = s := by
        simp [applyRemoteOperation]
      rw [hstep]
      refine ⟨hm1, ?_, ?_, ?_⟩
      · intro k hk hni
        rw [hins_iff] at hni
        exact hm2 k hk hni
      · intro e' he' hid'
        rcases List.mem_cons.mp he' with heq | hmem
        · cases heq
        · rw [hm3 e' hmem hid']
          have hiff : HasDel (Operation.delete START_SENTINEL_ID :: T) e'.id
              ↔ HasDel T e'.id := by
            rw [hasDel_cons_delete]
            constructor
            · rintro (heq | h)
              · exact absurd heq.symm hid'
              · exact h
            · exact Or.inr
          rw [decide_eq_decide.mpr hiff]
      · intro k hk hdel
        rw [hasDel_cons_delete] at hdel
        rw [hins_iff]
        rcases hdel with heq | hdel
        · exact absurd heq.symm hk
        · exact hm4 k hk hdel
    · obtain ⟨ex, hex⟩ := Option.isSome_iff_exists.mp hsome
      have hstep : applyRemoteOperation s (.delete d) = setTombstone s d := by
        simp [applyRemoteOperation, hdh, hex]
      rw [hstep]
      have hinsT : HasIns T d := by
        by_contra hni
        rw [hm2 d hdh hni] at hex
        cases hex
      refine ⟨?_, ?_, ?_, ?_⟩
      · rw [lookup_setTombstone_ne s d _ (fun he => hdh he.symm)]
        exact hm1
      · intro k hk hni
        rw [hins_iff] at hni
        have hkd : k ≠ d := fun he => hni (he ▸ hinsT)
        rw [lookup_setTombstone_ne s d k hkd]
        exact hm2 k hk hni
      · intro e' he' hid'
        rcases List.mem_cons.mp he' with heq | hmem
        · cases heq
        · by_cases hke : e'.id = d
          · have hlook := hm3 e' hmem hid'
            have hset := lookup_setTombstone_self_flat s e'.id e' _ hlook
            rw [← hke, hset]
            have hdec : decide (HasDel (Operation.delete e'.id :: T) e'.id) = true := by
              rw [decide_eq_true_eq, hasDel_cons_delete]
              exact Or.inl rfl
            rw [hdec]
          · rw [lookup_setTombstone_ne s d e'.id hke]
            rw [hm3 e' hmem hid']
            have hiff : HasDel (Operation.delete d :: T) e'.id ↔ HasDel T e'.id := by
              rw [hasDel_cons_delete]
              constructor
              · rintro (heq | h)
                · exact absurd heq (fun he => hke he.symm)
                · exact h
              · exact Or.inr
            rw [decide_eq_decide.mpr hiff]
      · intro k hk hdel
        rw [hasDel_cons_delete] at hdel
        rw [hins_iff]
        rcases hdel with heq | hdel
        · exact heq ▸ hinsT
        · exact hm4 k hk hdel
  | noop r =>
    have hins_iff : ∀ k, HasIns (Operation.noop r :: T) k ↔ HasIns T k :=
      fun k => hasIns_cons_other _ _ _ (fun e' hc => by cases hc)
    have hdel_iff : ∀ k, HasDel (Operation.noop r :: T) k ↔ HasDel T k :=
      fun k => hasDel_cons_other _ _ _ (fun hc => by cases hc)
    have hstep : applyRemoteOperation s (.noop r) = s := rfl
    rw [hstep]
    refine ⟨hm1, ?_, ?_, ?_⟩
    · intro k hk hni
      rw [hins_iff] at hni
      exact hm2 k hk hni
    · intro e' he' hid'
      rcases List.mem_cons.mp he' with heq | hmem
      · cases heq
      · rw [hm3 e' hmem hid', decide_eq_decide.mpr (hdel_iff e'.id)]
    · intro k hk hdel
      rw [hdel_iff] at hdel
      rw [hins_iff]
      exact hm4 k hk hdel

theorem applyOps_nil (s : Store) : applyOps s [] = s := rfl

theorem applyOps_cons (s : Store) (op : Operation) (L : List Operation) :
    applyOps s (op :: L) = applyOps (applyRemoteOperation s op) L := rfl

/-- Applying a causally-ready list of operations drawn from a well-formed
set extends the characterization to the whole list. -/
theorem storeMatches_applyOps {S : List Operation} (hwf : wellFormedOps S = true) :
    ∀ (L T : List Operation) (s : Store),
      (∀ op ∈ T, op ∈ S) → (∀ op ∈ L, op ∈ S) →
      StoreMatches s T → causallyReadyFrom s L = true →
      StoreMatches (applyOps s L) (L.reverse ++ T)
  | [], T, s, _, _, hm, _ => by simpa [applyOps] using hm
  | op :: L', T, s, hT, hL, hm, hc => by
    rw [causallyReadyFrom, Bool.and_eq_true] at hc
    have hop : op ∈ S := hL op (List.mem_cons_self _ _)
    have hstep := storeMatches_step hwf hT hop hm hc.1
    have hT' : ∀ o ∈ op :: T, o ∈ S := by
      intro o ho
      rcases List.mem_cons.mp ho with rfl | ho
      · exact hop
      · exact hT o ho
    have hL' : ∀ o ∈ L', o ∈ S := fun o ho => hL o (List.mem_cons_of_mem _ ho)
    have hrec := storeMatches_applyOps hwf L' (op :: T) _ hT' hL' hstep hc.2
    rw [applyOps_cons]
    have hlist : L'.reverse ++ (op :: T) = (op :: L').reverse ++ T := by
      simp [List.reverse_cons, List.append_assoc]
    rw [hlist] at hrec
    exact hrec

/-- Two characterized stores over op lists with the same members have
identical lookups at every key. -/
theorem matches_lookup_eq {T1 T2 : List Operation}
    (hmem : ∀ op, op ∈ T1 ↔ op ∈ T2)
    {s1 s2 : Store} (h1 : StoreMatches s1 T1) (h2 : StoreMatches s2 T2) :
    ∀ k, alistLookup s1 k = alistLookup s2 k := by
  intro k
  obtain ⟨h11, h12, h13, h14⟩ := h1
  obtain ⟨h21, h22, h23, h24⟩ := h2
  by_cases hk : k = START_SENTINEL_ID
  · subst hk
    rw [h11, h21]
  · by_cases hi : HasIns T1 k
    · obtain ⟨e, he, hid⟩ := hi
      have he2 : Operation.insert e ∈ T2 := (hmem _).mp he
      subst hid
      rw [h13 e he hk, h23 e he2 hk]
      have hdel_iff : HasDel T1 e.id ↔ HasDel T2 e.id :=
        ⟨fun h => (hmem _).mp h, fun h => (hmem _).mpr h⟩
      rw [decide_eq_decide.mpr hdel_iff]
    · have hi2 : ¬ HasIns T2 k := by
        rintro ⟨e, he, hid⟩
        exact hi ⟨e, (hmem _).mpr he, hid⟩
      rw [h12 k hk hi, h22 k hk hi2]

theorem storeOk_applyRemote (s : Store) (op : Operation) (h : StoreOk s) :
    StoreOk (applyRemoteOperation s op) := by
  cases op with
  | insert e =>
    cases hl : alistLookup s e.id with
    | some ex =>
      by_cases hc : (!ex.is_tombstone && e.is_tombstone) = true
      · have hstep : applyRemoteOperation s (.insert e) = setTombstone s e.id := by
          simp [applyRemoteOperation, hl, hc]
        rw [hstep]
        exact storeOk_setTombstone s e.id h
      · have hstep : applyRemoteOperation s (.insert e) = s := by
          simp only [applyRemoteOperation, hl]
          rw [if_neg hc]
        rw [hstep]
        exact h
    | none =>
      cases hp : e.predecessor_id with
      | some p =>
        cases hpl : alistLookup s p with
        | none =>
          have hstep : applyRemoteOperation s (.insert e) = s := by
            simp [applyRemoteOperation, hl, hp, hpl]
          rw [hstep]
          exact h
        | some q =>
          have hstep : applyRemoteOperation s (.insert e) = alistInsert s e.id e := by
            simp [applyRemoteOperation, hl, hp, hpl]
          rw [hstep]
          exact storeOk_alistInsert s e h hl
      | none =>
        have hstep : applyRemoteOperation s (.insert e) = alistInsert s e.id e := by
          simp [applyRemoteOperation, hl, hp]
        rw [hstep]
        exact storeOk_alistInsert s e h hl
  | delete d =>
    by_cases hd : d = START_SENTINEL_ID
    · have hstep : applyRemoteOperation s (.delete d) = s := by
        simp [applyRemoteOperation, hd]
      rw [hstep]
      exact h
    · cases hl : alistLookup s d with
      | some ex =>
        have hstep : applyRemoteOperation s (.delete d) = setTombstone s d := by
          simp [applyRemoteOperation, hd, hl]
        rw [hstep]
        exact storeOk_setTombstone s d h
      | none =>
        have hstep : applyRemoteOperation s (.delete d) = s := by
          simp [applyRemoteOperation, hd, hl]
        rw [hstep]
        exact h
  | noop r => exact h

theorem storeOk_applyOps (s : Store) (L : List Operation) (h : StoreOk s) :
    StoreOk (applyOps s L) := by
  induction L generalizing s with
  | nil => exact h
  | cons op L' ih =>
    rw [applyOps_cons]
    exact ih _ (storeOk_applyRemote s op h)

theorem mem_iff_lookup {s : Store} (hnd : (s.map Prod.fst).Nodup) (k : ElementID)
    (e : Element) : (k, e) ∈ s ↔ alistLookup s k = some e := by
  induction s with
  | nil => simp
  | cons hd tl ih =>
    rw [List.map_cons, List.nodup_cons] at hnd
    by_cases hc : hd.1 = k
    · subst hc
      rw [alistLookup_cons, if_pos rfl, List.mem_cons]
      constructor
      · rintro (heq | hmem)
        · have he2 : e = hd.2 := congrArg Prod.snd heq
          rw [he2]
        · exact absurd (List.mem_map_of_mem Prod.fst hmem) hnd.1
      · intro heq
        injection heq with h2
        subst h2
        left
        exact Prod.mk.eta
    · rw [alistLookup_cons, if_neg hc, List.mem_cons]
      rw [← ih hnd.2]
      constructor
      · rintro (heq | hmem)
        · rw [← heq] at hc
          exact absurd rfl hc
        · exact hmem
      · exact Or.inr

theorem store_perm_of_lookup_eq {s1 s2 : Store}
    (h1 : (s1.map Prod.fst).Nodup) (h2 : (s2.map Prod.fst).Nodup)
    (h : ∀ k, alistLookup s1 k = alistLookup s2 k) : s1.Perm s2 := by
  apply (List.perm_ext_iff_of_nodup (h1.of_map Prod.fst) (h2.of_map Prod.fst)).mpr
  rintro ⟨k, e⟩
  rw [mem_iff_lookup h1, mem_iff_lookup h2, h k]

/-! ### The visible value is determined by the store viewed as a map -/

theorem idLe_antisymm {a b : ElementID} (h1 : idLe a b) (h2 : idLe b a) : a = b := by
  rcases h1 with h1 | ⟨he1, hl1⟩
  · rcases h2 with h2 | ⟨he2, hl2⟩
    · exact absurd h2 (lt_asymm h1)
    · exact absurd h1 (he2 ▸ lt_irrefl _)
  · rcases h2 with h2 | ⟨he2, hl2⟩
    · exact absurd h2 (he1 ▸ lt_irrefl _)
    · exact Prod.ext he1 (le_antisymm hl1 hl2)

theorem sorted_perm_eq_of_nodup_ids :
    ∀ {l1 l2 : List Element}, l1.Perm l2 → List.Sorted elemLe l1 → List.Sorted elemLe l2 →
      (l1.map Element.id).Nodup → l1 = l2 := by
  intro l1
  induction l1 with
  | nil =>
    intro l2 hp _ _ _
    exact (List.Perm.eq_nil hp.symm).symm
  | cons a t1 ih =>
    intro l2 hp hs1 hs2 hnd
    have ha2 : a ∈ l2 := hp.mem_iff.mp (List.mem_cons_self a t1)
    cases l2 with
    | nil => cases ha2
    | cons b t2 =>
      rw [List.map_cons, List.nodup_cons] at hnd
      by_cases hab : a = b
      · subst hab
        have hp' : t1.Perm t2 := hp.cons_inv
        rw [ih hp' (List.sorted_cons.mp hs1).2 (List.sorted_cons.mp hs2).2 hnd.2]
      · exfalso
        have hb1 : b ∈ a :: t1 := hp.mem_iff.mpr (List.mem_cons_self b t2)
        have hbt1 : b ∈ t1 := by
          rcases List.mem_cons.mp hb1 with h | h
          · exact absurd h.symm hab
          · exact h
        have hat2 : a ∈ t2 := by
          rcases List.mem_cons.mp ha2 with h | h
          · exact absurd h hab
          · exact h
        have h1 : elemLe a b := (List.sorted_cons.mp hs1).1 b hbt1
        have h2 : elemLe b a := (List.sorted_cons.mp hs2).1 a hat2
        have hid : a.id = b.id := idLe_antisymm h1 h2
        exact hnd.1 (hid ▸ List.mem_map_of_mem Element.id hbt1)

theorem lookup_perm {s1 s2 : Store} (hp : s1.Perm s2) (hnd : (s1.map Prod.fst).Nodup) :
    ∀ k, alistLookup s1 k = alistLookup s2 k := by
  intro k
  have hnd2 : (s2.map Prod.fst).Nodup := ((hp.map Prod.fst).nodup_iff).mp hnd
  cases hl : alistLookup s1 k with
  | some e =>
    have hmem : (k, e) ∈ s1 := (mem_iff_lookup hnd k e).mpr hl
    exact ((mem_iff_lookup hnd2 k e).mp (hp.mem_iff.mp hmem)).symm
  | none =>
    have hk : k ∉ s1.map Prod.fst := (lookup_none_iff_not_key s1 k).mp hl
    have hk2 : k ∉ s2.map Prod.fst := fun h => hk ((hp.map Prod.fst).mem_iff.mpr h)
    exact ((lookup_none_iff_not_key s2 k).mpr hk2).symm

theorem values_ids_nodup {s : Store} (hok : StoreOk s) :
    ((storeValues s).map Element.id).Nodup := by
  unfold storeValues
  rw [List.map_map]
  have : s.map (Element.id ∘ Prod.snd) = s.map Prod.fst := by
    apply List.map_congr_left
    intro kv hkv
    exact hok.2 kv hkv
  rw [this]
  exact hok.1

theorem successorsSorted_perm_eq {s1 s2 : Store} (hp : s1.Perm s2) (hok : StoreOk s1)
    (k : ElementID) : successorsSorted s1 k = successorsSorted s2 k := by
  unfold successorsSorted
  apply sorted_perm_eq_of_nodup_ids
  · exact ((List.perm_insertionSort elemLe _).trans
      (((hp.map Prod.snd).filter _))).trans (List.perm_insertionSort elemLe _).symm
  · exact List.sorted_insertionSort elemLe _
  · exact List.sorted_insertionSort elemLe _
  · apply ((List.perm_insertionSort elemLe _).map Element.id).nodup_iff.mpr
    have hsub : ((storeValues s1).filter (fun e => decide (e.predecessor_id = some k))).Sublist
        (storeValues s1) := List.filter_sublist _
    exact List.Nodup.sublist (hsub.map Element.id) (values_ids_nodup hok)

theorem rgaTraverse_nil (s : Store) (visited : List ElementID) :
    rgaTraverse s [] visited = [] := by
  rw [rgaTraverse.eq_def]

theorem rgaTraverse_cons_visited (s : Store) (k : ElementID) (stack visited : List ElementID)
    (h : k ∈ visited) :
    rgaTraverse s (k :: stack) visited = rgaTraverse s stack visited := by
  rw [rgaTraverse.eq_def]
  simp [h]

theorem rgaTraverse_cons_miss (s : Store) (k : ElementID) (stack visited : List ElementID)
    (h : k ∉ visited) (hl : alistLookup s k = none) :
    rgaTraverse s (k :: stack) visited = rgaTraverse s stack (k :: visited) := by
  rw [rgaTraverse.eq_def]
  split
  · rename_i heq
    cases heq
  · rename_i k0 stack0 visited0 heq
    injection heq with h1 h2
    subst h1
    subst h2
    rw [if_neg h]
    split
    · rfl
    · rename_i e' heq2
      rw [hl] at heq2
      cases heq2

theorem rgaTraverse_cons_found (s : Store) (k : ElementID) (stack visited : List ElementID)
    (e : Element) (h : k ∉ visited) (hl : alistLookup s k = some e) :
    rgaTraverse s (k :: stack) visited =
      e :: rgaTraverse s
        ((((successorsSorted s k).filter
            (fun e' => decide (e'.id ∉ (k :: visited)))).map Element.id) ++ stack)
        (k :: visited) := by
  rw [rgaTraverse.eq_def]
  split
  · rename_i heq
    cases heq
  · rename_i k0 stack0 visited0 heq
    injection heq with h1 h2
    subst h1
    subst h2
    rw [if_neg h]
    split
    · rename_i heq2
      rw [hl] at heq2
      cases heq2
    · rename_i e' heq2
      rw [hl] at heq2
      injection heq2 with he
      subst he
      rfl

theorem rgaTraverse_perm {s1 s2 : Store} (hp : s1.Perm s2) (hok : StoreOk s1) :
    ∀ stack visited, rgaTraverse s1 stack visited = rgaTraverse s2 stack visited := by
  have hlook := lookup_perm hp hok.1
  intro stack visited
  induction stack, visited using rgaTraverse.induct (s := s1) with
  | case1 visited => rw [rgaTraverse_nil, rgaTraverse_nil]
  | case2 k stack visited hv ih =>
    rw [rgaTraverse_cons_visited s1 k stack visited hv,
      rgaTraverse_cons_visited s2 k stack visited hv]
    exact ih
  | case3 k stack visited hv hl ih =>
    have hl2 : alistLookup s2 k = none := by
      rw [← hlook k]
      exact hl
    rw [rgaTraverse_cons_miss s1 k stack visited hv hl,
      rgaTraverse_cons_miss s2 k stack visited hv hl2]
    exact ih
  | case4 k stack visited hv e hl ih =>
    have hl2 : alistLookup s2 k = some e := by
      rw [← hlook k]
      exact hl
    rw [rgaTraverse_cons_found s1 k stack visited e hv hl,
      rgaTraverse_cons_found s2 k stack visited e hv hl2,
      ← successorsSorted_perm_eq hp hok k]
    rw [ih]

theorem getValue_perm {s1 s2 : Store} (hp : s1.Perm s2) (hok : StoreOk s1) :
    getValue s1 = getValue s2 := by
  unfold getValue getOrderedVisibleElements
  rw [rgaTraverse_perm hp hok]

instance {ε α : Type} [DecidableEq ε] [DecidableEq α] : DecidableEq (Except ε α) :=
  fun x y =>
    match x, y with
    | .ok a, .ok b =>
      if h : a = b then isTrue (by rw [h])
      else isFalse (by intro hc; injection hc; contradiction)
    | .error a, .error b =>
      if h : a = b then isTrue (by rw [h])
      else isFalse (by intro hc; injection hc; contradiction)
    | .ok _, .error _ => isFalse (by intro hc; cases hc)
    | .error _, .ok _ => isFalse (by intro hc; cases hc)

/-! ### Claim C1 -/

/-- Operation emitted by `localInsert (rgaInit "site1") 0 "A" 1 1`. -/
def c1OpA : Operation :=
  Operation.insert
    { id := (1, "site1"), value := some "A",
      predecessor_id := some START_SENTINEL_ID, is_tombstone := false }

/-- Operation emitted by the subsequent `localInsert _ 1 "B" 2 2`. -/
def c1OpB : Operation :=
  Operation.insert
    { id := (2, "site1"), value := some "B",
      predecessor_id := some (1, "site1"), is_tombstone := false }

/-- C1 counterexample: engine "site1" emits insert A at 0, then insert B at
1 (`c1OpA`, `c1OpB`).  A fresh engine that applies them in emission order
reads "AB"; a fresh engine that applies them in the reverse order drops the
B insert (missing predecessor) and reads "A": both engines have applied
every emitted operation, yet their values differ — and the out-of-order
replay does not yield "AB". -/
theorem C1_counterexample_order_dependent :
    (localInsert (rgaInit "site1") 0 "A" 1 1).1 = Except.ok c1OpA ∧
    (localInsert (localInsert (rgaInit "site1") 0 "A" 1 1).2 1 "B" 2 2).1
      = Except.ok c1OpB ∧
    getValue (applyOps initialStore [c1OpA, c1OpB]) = "AB" ∧
    getValue (applyOps initialStore [c1OpB, c1OpA]) = "A" ∧
    getValue (applyOps initialStore [c1OpA, c1OpB])
      ≠ getValue (applyOps initialStore [c1OpB, c1OpA]) := by
  have h1 : getValue (applyOps initialStore [c1OpA, c1OpB]) = "AB" := by
    simp [getValue, getOrderedVisibleElements, applyOps, applyRemoteOperation, c1OpA, c1OpB,
      initialStore, START_SENTINEL_ID, sentinelElement, alistLookup, alistInsert,
      rgaTraverse_cons_found, rgaTraverse_cons_miss, rgaTraverse_cons_visited, rgaTraverse_nil,
      successorsSorted, storeValues, elemLe, idLe, setTombstone, List.insertionSort,
      List.orderedInsert]
    decide
  have h2 : getValue (applyOps initialStore [c1OpB, c1OpA]) = "A" := by
    simp [getValue, getOrderedVisibleElements, applyOps, applyRemoteOperation, c1OpA, c1OpB,
      initialStore, START_SENTINEL_ID, sentinelElement, alistLookup, alistInsert,
      rgaTraverse_cons_found, rgaTraverse_cons_miss, rgaTraverse_cons_visited, rgaTraverse_nil,
      successorsSorted, storeValues, elemLe, idLe, setTombstone, List.insertionSort,
      List.orderedInsert]
    decide
  have hemit1 : (localInsert (rgaInit "site1") 0 "A" 1 1).1 = Except.ok c1OpA := by
    simp [localInsert, localInsertPred, getOrderedVisibleElements, rgaInit, generateId, c1OpA,
      initialStore, START_SENTINEL_ID, sentinelElement, alistLookup, alistInsert,
      rgaTraverse_cons_found, rgaTraverse_cons_miss, rgaTraverse_cons_visited, rgaTraverse_nil,
      successorsSorted, storeValues, elemLe, idLe, max_def,
      show "A".length = 1 from by decide]
    norm_num
  have hemit2 : (localInsert (localInsert (rgaInit "site1") 0 "A" 1 1).2 1 "B" 2 2).1
      = Except.ok c1OpB := by
    simp [localInsert, localInsertPred, getOrderedVisibleElements, rgaInit, generateId, c1OpA, c1OpB,
      initialStore, START_SENTINEL_ID, sentinelElement, alistLookup, alistInsert,
      rgaTraverse_cons_found, rgaTraverse_cons_miss, rgaTraverse_cons_visited, rgaTraverse_nil,
      successorsSorted, storeValues, elemLe, idLe, max_def,
      show "A".length = 1 from by decide, show "B".length = 1 from by decide]
    norm_num
  refine ⟨hemit1, hemit2, h1, h2, ?_⟩
  rw [h1, h2]
  decide

/-- C1 (amended): convergence holds for causally-ready delivery.  If every
operation of a well-formed emitted set `S` is applied to both fresh engines
(in any order and any number of times) and each application order is
causally ready — every insert finds its predecessor present, every delete
finds its target present — then both engines read the same value. -/
theorem C1_convergence_causally_ready (S L1 L2 : List Operation)
    (hwf : wellFormedOps S = true)
    (h1S : ∀ op ∈ L1, op ∈ S) (hS1 : ∀ op ∈ S, op ∈ L1)
    (h2S : ∀ op ∈ L2, op ∈ S) (hS2 : ∀ op ∈ S, op ∈ L2)
    (hc1 : causallyReadyFrom initialStore L1 = true)
    (hc2 : causallyReadyFrom initialStore L2 = true) :
    getValue (applyOps initialStore L1) = getValue (applyOps initialStore L2) := by
  have hm1 := storeMatches_applyOps hwf L1 [] initialStore
    (by intro o ho; cases ho) h1S storeMatches_initial hc1
  have hm2 := storeMatches_applyOps hwf L2 [] initialStore
    (by intro o ho; cases ho) h2S storeMatches_initial hc2
  rw [List.append_nil] at hm1 hm2
  have hmemiff : ∀ op, op ∈ L1.reverse ↔ op ∈ L2.reverse := by
    intro op
    rw [List.mem_reverse, List.mem_reverse]
    exact ⟨fun h => hS2 op (h1S op h), fun h => hS1 op (h2S op h)⟩
  have hlk := matches_lookup_eq hmemiff hm1 hm2
  have hok1 : StoreOk (applyOps initialStore L1) :=
    storeOk_applyOps _ _ storeOk_initial
  have hok2 : StoreOk (applyOps initialStore L2) :=
    storeOk_applyOps _ _ storeOk_initial
  exact getValue_perm (store_perm_of_lookup_eq hok1.1 hok2.1 hlk) hok1

/-- C1 witness: concrete causally-ready instantiation of the amended
convergence theorem, with one operation applied twice in the second order. -/
theorem C1_convergence_witness :
    wellFormedOps [c1OpA, c1OpB] = true ∧
    causallyReadyFrom initialStore [c1OpA, c1OpB] = true ∧
    causallyReadyFrom initialStore [c1OpA, c1OpB, c1OpA] = true ∧
    getValue (applyOps initialStore [c1OpA, c1OpB])
      = getValue (applyOps initialStore [c1OpA, c1OpB, c1OpA]) :=
  ⟨by decide, by decide, by decide,
    C1_convergence_causally_ready [c1OpA, c1OpB] [c1OpA, c1OpB] [c1OpA, c1OpB, c1OpA]
      (by decide) (by decide) (by decide) (by decide) (by decide)
      (by decide) (by decide)⟩

/-! ### Claim C2 -/

/-- Element used by the C2 counterexample and witness. -/
def c2Elem : Element :=
  { id := (1, "a"), value := some "x",
    predecessor_id := some START_SENTINEL_ID, is_tombstone := false }

/-- C2 counterexample: a delete for (1,"a") applied before its insert is
ignored, so the subsequent insert leaves the element in the store with
is_tombstone = false, contradicting "either order leaves the element
tombstoned". -/
theorem C2_counterexample_delete_then_insert :
    alistLookup
      (applyRemoteOperation
        (applyRemoteOperation initialStore (Operation.delete (1, "a")))
        (Operation.insert c2Elem)) (1, "a")
      = some c2Elem ∧ c2Elem.is_tombstone = false :=
  ⟨by decide, rfl⟩

/-- C2 (amended): insert-then-delete leaves the element tombstoned, but a
delete for an id not yet in the store is dropped without any state change,
so delete-then-insert leaves the element exactly as the insert created it
(is_tombstone = false). -/
theorem C2_delete_wins_only_insert_first (s : Store) (e : Element) (p : ElementID)
    (hid : e.id ≠ START_SENTINEL_ID)
    (hnew : alistLookup s e.id = none)
    (hpred : e.predecessor_id = some p)
    (hp : alistLookup s p ≠ none)
    (htomb : e.is_tombstone = false) :
    alistLookup
      (applyRemoteOperation (applyRemoteOperation s (Operation.insert e))
        (Operation.delete e.id)) e.id = some { e with is_tombstone := true } ∧
    applyRemoteOperation s (Operation.delete e.id) = s ∧
    alistLookup
      (applyRemoteOperation (applyRemoteOperation s (Operation.delete e.id))
        (Operation.insert e)) e.id = some e := by
  have hins : applyRemoteOperation s (Operation.insert e) = alistInsert s e.id e := by
    simp only [applyRemoteOperation, hnew, hpred]
    rw [if_neg hp]
  have hdel : applyRemoteOperation s (Operation.delete e.id) = s := by
    simp [applyRemoteOperation, hid, hnew]
  refine ⟨?_, hdel, ?_⟩
  · rw [hins]
    have hlk : alistLookup (alistInsert s e.id e) e.id = some e :=
      lookup_alistInsert_self s e.id e
    have hstep : applyRemoteOperation (alistInsert s e.id e) (Operation.delete e.id)
        = setTombstone (alistInsert s e.id e) e.id := by
      simp [applyRemoteOperation, hid, hlk]
    rw [hstep]
    exact lookup_setTombstone_self _ _ _ hlk
  · rw [hdel, hins]
    rw [lookup_alistInsert_self]

/-- C2 witness: the amended statement instantiated at a fresh store and the
concrete element (1,"a"). -/
theorem C2_delete_wins_witness :
    ((1 : Rat), "a") ≠ START_SENTINEL_ID ∧
    alistLookup
      (applyRemoteOperation (applyRemoteOperation initialStore (Operation.insert c2Elem))
        (Operation.delete c2Elem.id)) c2Elem.id
      = some { c2Elem with is_tombstone := true } :=
  ⟨by decide,
    (C2_delete_wins_only_insert_first initialStore c2Elem START_SENTINEL_ID
      (by decide) (by decide) rfl (by decide) rfl).1⟩

/-! ### Claim C3 -/

/-- Store with two concurrent siblings of HEAD: Y with id (1,"a") and Z
with id (2,"b"). -/
def c3Store : Store :=
  [(START_SENTINEL_ID, sentinelElement),
   ((1, "a"), { id := (1, "a"), value := some "Y",
                predecessor_id := some START_SENTINEL_ID, is_tombstone := false }),
   ((2, "b"), { id := (2, "b"), value := some "Z",
                predecessor_id := some START_SENTINEL_ID, is_tombstone := false })]

/-- Engine state after the source file's own example sequence:
insert 'A' at 0, insert 'B' at 1, insert 'X' at 1 (rga.py __main__,
expected there to read "AXB"). -/
def c3EngineABX : RGAState :=
  (localInsert (localInsert (localInsert (rgaInit "site1") 0 "A" 1 1).2
    1 "B" 2 2).2 1 "X" 3 3).2

/-- C3: the traversal visits siblings in ASCENDING ElementId order, so the
element with the greater id lands farther from the predecessor: the
two-sibling store reads "YZ" (not "ZY"), and the source's own example
sequence yields "ABX" where its comment expects "AXB". -/
theorem C3_siblings_ascending_failing_input :
    getValue c3Store = "YZ" ∧ getValue c3Store ≠ "ZY" ∧
    getValue c3EngineABX.elements_by_id = "ABX" ∧
    getValue c3EngineABX.elements_by_id ≠ "AXB" := by
  have h1 : getValue c3Store = "YZ" := by
    simp [getValue, getOrderedVisibleElements, c3Store,
      initialStore, START_SENTINEL_ID, sentinelElement, alistLookup,
      rgaTraverse_cons_found, rgaTraverse_cons_miss, rgaTraverse_cons_visited, rgaTraverse_nil,
      successorsSorted, storeValues, elemLe, idLe, List.insertionSort, List.orderedInsert]
    decide
  have e1 : (localInsert (rgaInit "site1") 0 "A" 1 1).2
      = { site_id := "site1",
          elements_by_id :=
            [(START_SENTINEL_ID, sentinelElement),
             ((1, "site1"), { id := (1, "site1"), value := some "A",
                              predecessor_id := some START_SENTINEL_ID,
                              is_tombstone := false })],
          local_clock := 1 } := by
    simp [localInsert, localInsertPred, getOrderedVisibleElements, rgaInit, generateId,
      initialStore, START_SENTINEL_ID, sentinelElement, alistLookup, alistInsert,
      rgaTraverse_cons_found, rgaTraverse_cons_miss, rgaTraverse_cons_visited, rgaTraverse_nil,
      successorsSorted, storeValues, elemLe, idLe, max_def,
      show "A".length = 1 from by decide]
    norm_num
  have e2 : (localInsert
        { site_id := "site1",
          elements_by_id :=
            [(START_SENTINEL_ID, sentinelElement),
             ((1, "site1"), { id := (1, "site1"), value := some "A",
                              predecessor_id := some START_SENTINEL_ID,
                              is_tombstone := false })],
          local_clock := 1 } 1 "B" 2 2).2
      = { site_id := "site1",
          elements_by_id :=
            [(START_SENTINEL_ID, sentinelElement),
             ((1, "site1"), { id := (1, "site1"), value := some "A",
                              predecessor_id := some START_SENTINEL_ID,
                              is_tombstone := false }),
             ((2, "site1"), { id := (2, "site1"), value := some "B",
                              predecessor_id := some (1, "site1"),
                              is_tombstone := false })],
          local_clock := 2 } := by
    simp [localInsert, localInsertPred, getOrderedVisibleElements, generateId,
      initialStore, START_SENTINEL_ID, sentinelElement, alistLookup, alistInsert,
      rgaTraverse_cons_found, rgaTraverse_cons_miss, rgaTraverse_cons_visited, rgaTraverse_nil,
      successorsSorted, storeValues, elemLe, idLe, max_def, List.insertionSort,
      List.orderedInsert, show "B".length = 1 from by decide]
    norm_num
  have e3 : (localInsert
        { site_id := "site1",
          elements_by_id :=
            [(START_SENTINEL_ID, sentinelElement),
             ((1, "site1"), { id := (1, "site1"), value := some "A",
                              predecessor_id := some START_SENTINEL_ID,
                              is_tombstone := false }),
             ((2, "site1"), { id := (2, "site1"), value := some "B",
                              predecessor_id := some (1, "site1"),
                              is_tombstone := false })],
          local_clock := 2 } 1 "X" 3 3).2
      = { site_id := "site1",
          elements_by_id :=
            [(START_SENTINEL_ID, sentinelElement),
             ((1, "site1"), { id := (1, "site1"), value := some "A",
                              predecessor_id := some START_SENTINEL_ID,
                              is_tombstone := false }),
             ((2, "site1"), { id := (2, "site1"), value := some "B",
                              predecessor_id := some (1, "site1"),
                              is_tombstone := false }),
             ((3, "site1"), { id := (3, "site1"), value := some "X",
                              predecessor_id := some (1, "site1"),
                              is_tombstone := false })],
          local_clock := 3 } := by
    simp [localInsert, localInsertPred, getOrderedVisibleElements, generateId,
      initialStore, START_SENTINEL_ID, sentinelElement, alistLookup, alistInsert,
      rgaTraverse_cons_found, rgaTraverse_cons_miss, rgaTraverse_cons_visited, rgaTraverse_nil,
      successorsSorted, storeValues, elemLe, idLe, max_def, List.insertionSort,
      List.orderedInsert, show "X".length = 1 from by decide]
    norm_num
  have hst : c3EngineABX.elements_by_id
      = [(START_SENTINEL_ID, sentinelElement),
         ((1, "site1"), { id := (1, "site1"), value := some "A",
                          predecessor_id := some START_SENTINEL_ID,
                          is_tombstone := false }),
         ((2, "site1"), { id := (2, "site1"), value := some "B",
                          predecessor_id := some (1, "site1"),
                          is_tombstone := false }),
         ((3, "site1"), { id := (3, "site1"), value := some "X",
                          predecessor_id := some (1, "site1"),
                          is_tombstone := false })] := by
    unfold c3EngineABX
    rw [e1, e2, e3]
  have h2 : getValue c3EngineABX.elements_by_id = "ABX" := by
    rw [hst]
    simp [getValue, getOrderedVisibleElements,
      START_SENTINEL_ID, sentinelElement, alistLookup,
      rgaTraverse_cons_found, rgaTraverse_cons_miss, rgaTraverse_cons_visited, rgaTraverse_nil,
      successorsSorted, storeValues, elemLe, idLe, List.insertionSort, List.orderedInsert,
      show ((2 : Rat) < 3) from by norm_num]
    decide
  refine ⟨h1, by rw [h1]; decide, h2, by rw [h2]; decide⟩

/-! ### Claim C4 -/

/-- A crafted remote insert carrying the sentinel id with a true tombstone
flag. -/
def c4SentinelInsert : Operation :=
  Operation.insert
    { id := START_SENTINEL_ID, value := none, predecessor_id := none, is_tombstone := true }

/-- C4 counterexample: the duplicate-insert branch of
apply_remote_operation upgrades the stored element to a tombstone whenever
the incoming payload carries is_tombstone = true — it never checks for the
sentinel — so one crafted insert tombstones HEAD on a fresh engine. -/
theorem C4_counterexample_sentinel_tombstoned :
    alistLookup (applyRemoteOperation initialStore c4SentinelInsert) START_SENTINEL_ID
      = some { sentinelElement with is_tombstone := true } := by
  decide

/-- One engine step: a local insert (with its wall-clock inputs), a local
delete, or a remote operation. -/
inductive EngineStep where
  | localIns (index : Int) (value : String) (ts ts2 : Rat)
  | localDel (index : Int)
  | remote (op : Operation)
deriving DecidableEq

/-- Run one step against the engine state (errors leave the store
untouched; the collision path still advances the clock, as in the source). -/
def runStep (st : RGAState) (step : EngineStep) : RGAState :=
  match step with
  | .localIns i v ts ts2 => (localInsert st i v ts ts2).2
  | .localDel i => (localDelete st i).2
  | .remote op => applyRemoteState st op

/-- Run a sequence of engine steps from a state. -/
def runSteps (st : RGAState) (steps : List EngineStep) : RGAState :=
  steps.foldl runStep st

/-- A step that cannot touch the sentinel tombstone flag: anything except a
remote insert that carries the sentinel id together with a true tombstone
flag. -/
def stepKeepsSentinel (step : EngineStep) : Bool :=
  match step with
  | .remote (.insert e) => !(decide (e.id = START_SENTINEL_ID) && e.is_tombstone)
  | _ => true

theorem generateId_clock_pos (st : RGAState) (ts : Rat) (hclk : 0 ≤ st.local_clock) :
    0 < (generateId st ts).1.1 ∧ (generateId st ts).2.local_clock = (generateId st ts).1.1 ∧
    (generateId st ts).2.elements_by_id = st.elements_by_id ∧
    (generateId st ts).2.site_id = st.site_id := by
  refine ⟨?_, rfl, rfl, rfl⟩
  have h1 : st.local_clock + 1/1000000 ≤ max (st.local_clock + 1/1000000) ts :=
    le_max_left _ _
  have h2 : (0 : Rat) < st.local_clock + 1/1000000 := by
    have hq : (0 : Rat) < 1/1000000 := by norm_num
    linarith
  exact lt_of_lt_of_le h2 h1

/-- The store after local_insert is either unchanged (an error path) or the
old store with one element added under a key whose clock is positive. -/
theorem localInsert_store_cases (st : RGAState) (i : Int) (v : String) (ts ts2 : Rat)
    (hclk : 0 ≤ st.local_clock) :
    ((localInsert st i v ts ts2).2.elements_by_id = st.elements_by_id ∨
      ∃ c p, 0 < c ∧ (localInsert st i v ts ts2).2.elements_by_id
        = alistInsert st.elements_by_id (c, st.site_id)
            { id := (c, st.site_id), value := some v,
              predecessor_id := some p, is_tombstone := false }) ∧
    0 ≤ (localInsert st i v ts ts2).2.local_clock := by
  have hc1 : (0 : Rat) < max (st.local_clock + 1/1000000) ts := by
    have hq : (0 : Rat) < st.local_clock + 1/1000000 := by
      have hq2 : (0 : Rat) < 1/1000000 := by norm_num
      linarith
    exact lt_of_lt_of_le hq (le_max_left _ _)
  have hc2 : (0 : Rat)
      < max (max (st.local_clock + 1/1000000) ts + 1/1000000) ts2 := by
    have hq : (0 : Rat) < max (st.local_clock + 1/1000000) ts + 1/1000000 := by
      have hq2 : (0 : Rat) < 1/1000000 := by norm_num
      linarith
    exact lt_of_lt_of_le hq (le_max_left _ _)
  unfold localInsert
  split
  · exact ⟨Or.inl rfl, hclk⟩
  split
  · exact ⟨Or.inl rfl, hclk⟩
  · cases hpred : localInsertPred (getOrderedVisibleElements st.elements_by_id) i with
    | error e =>
      simp only [hpred]
      exact ⟨Or.inl (by simp), hclk⟩
    | ok predecessorId =>
      simp only [hpred, generateId]
      cases hl1 : alistLookup st.elements_by_id
          (max (st.local_clock + 1/1000000) ts, st.site_id) with
      | some ex1 =>
        simp only [hl1]
        cases hl2 : alistLookup st.elements_by_id
            (max (max (st.local_clock + 1/1000000) ts + 1/1000000) ts2, st.site_id) with
        | some ex2 =>
          simp only [hl2]
          exact ⟨Or.inl (by simp), le_of_lt hc2⟩
        | none =>
          simp only [hl2]
          exact ⟨Or.inr ⟨_, predecessorId, hc2, by simp⟩, le_of_lt hc2⟩
      | none =>
        simp only [hl1]
        exact ⟨Or.inr ⟨_, predecessorId, hc1, by simp⟩, le_of_lt hc1⟩

/-- local_delete either leaves the store unchanged or tombstones a non-
sentinel id; the clock is untouched. -/
theorem localDelete_store_cases (st : RGAState) (i : Int) :
    ((localDelete st i).2.elements_by_id = st.elements_by_id ∨
      ∃ k, k ≠ START_SENTINEL_ID ∧
        (localDelete st i).2.elements_by_id = setTombstone st.elements_by_id k) ∧
    (localDelete st i).2.local_clock = st.local_clock := by
  simp only [localDelete]
  split
  · exact ⟨Or.inl (by simp), by simp⟩
  split
  · exact ⟨Or.inl (by simp), by simp⟩
  split
  · exact ⟨Or.inl (by simp), by simp⟩
  split
  · exact ⟨Or.inl (by simp), by simp⟩
  · rename_i elementToDelete hget
    split
    · split
      · exact ⟨Or.inl (by simp), by simp⟩
      · rename_i hne
        exact ⟨Or.inr ⟨elementToDelete.id, hne, by simp⟩, by simp⟩
    · exact ⟨Or.inl (by simp), by simp⟩

/-- Sentinel invariant for one step, under the benign-insert condition. -/
theorem runStep_sentinel (st : RGAState) (step : EngineStep)
    (hs : alistLookup st.elements_by_id START_SENTINEL_ID = some sentinelElement)
    (hclk : 0 ≤ st.local_clock)
    (hb : stepKeepsSentinel step = true) :
    alistLookup (runStep st step).elements_by_id START_SENTINEL_ID = some sentinelElement ∧
    0 ≤ (runStep st step).local_clock := by
  cases step with
  | localIns i v ts ts2 =>
    obtain ⟨hcase, hclk2⟩ := localInsert_store_cases st i v ts ts2 hclk
    refine ⟨?_, hclk2⟩
    rcases hcase with heq | ⟨c, p, hc, heq⟩
    · rw [runStep, heq, hs]
    · rw [runStep, heq]
      rw [lookup_alistInsert_ne]
      · exact hs
      · intro hcontra
        have hfst : (-1 : Rat) = c := congrArg Prod.fst hcontra
        rw [← hfst] at hc
        norm_num at hc
  | localDel i =>
    obtain ⟨hcase, hclk2⟩ := localDelete_store_cases st i
    refine ⟨?_, by rw [runStep, hclk2]; exact hclk⟩
    rcases hcase with heq | ⟨k, hk, heq⟩
    · rw [runStep, heq, hs]
    · rw [runStep, heq]
      rw [lookup_setTombstone_ne _ _ _ (fun he => hk he.symm)]
      exact hs
  | remote op =>
    refine ⟨?_, hclk⟩
    rw [runStep, applyRemoteState]
    cases op with
    | insert e =>
      by_cases hid : e.id = START_SENTINEL_ID
      · have htomb : e.is_tombstone = false := by
          rw [stepKeepsSentinel] at hb
          simp only [hid, decide_true_eq_true, Bool.true_and, Bool.not_eq_true',
            decide_eq_true_eq] at hb
          simpa using hb
        have hstep : applyRemoteOperation st.elements_by_id (Operation.insert e)
            = st.elements_by_id := by
          simp [applyRemoteOperation, hid, hs, htomb]
        rw [hstep, hs]
      · cases hl : alistLookup st.elements_by_id e.id with
        | some ex =>
          by_cases hc : (!ex.is_tombstone && e.is_tombstone) = true
          · have hstep : applyRemoteOperation st.elements_by_id (Operation.insert e)
                = setTombstone st.elements_by_id e.id := by
              simp [applyRemoteOperation, hl, hc]
            rw [hstep, lookup_setTombstone_ne _ _ _ (fun he => hid he.symm)]
            exact hs
          · have hstep : applyRemoteOperation st.elements_by_id (Operation.insert e)
                = st.elements_by_id := by
              simp only [applyRemoteOperation, hl]
              rw [if_neg hc]
            rw [hstep, hs]
        | none =>
          cases hp : e.predecessor_id with
          | some p =>
            cases hpl : alistLookup st.elements_by_id p with
            | none =>
              have hstep : applyRemoteOperation st.elements_by_id (Operation.insert e)
                  = st.elements_by_id := by
                simp [applyRemoteOperation, hl, hp, hpl]
              rw [hstep, hs]
            | some q =>
              have hstep : applyRemoteOperation st.elements_by_id (Operation.insert e)
                  = alistInsert st.elements_by_id e.id e := by
                simp [applyRemoteOperation, hl, hp, hpl]
              rw [hstep, lookup_alistInsert_ne _ _ _ _ (fun he => hid he.symm)]
              exact hs
          | none =>
            have hstep : applyRemoteOperation st.elements_by_id (Operation.insert e)
                = alistInsert st.elements_by_id e.id e := by
              simp [applyRemoteOperation, hl, hp]
            rw [hstep, lookup_alistInsert_ne _ _ _ _ (fun he => hid he.symm)]
            exact hs
    | delete d =>
      by_cases hd : d = START_SENTINEL_ID
      · have hstep : applyRemoteOperation st.elements_by_id (Operation.delete d)
            = st.elements_by_id := by
          simp [applyRemoteOperation, hd]
        rw [hstep, hs]
      · cases hl : alistLookup st.elements_by_id d with
        | some ex =>
          have hstep : applyRemoteOperation st.elements_by_id (Operation.delete d)
              = setTombstone st.elements_by_id d := by
            simp [applyRemoteOperation, hd, hl]
          rw [hstep, lookup_setTombstone_ne _ _ _ (fun he => hd he.symm)]
          exact hs
        | none =>
          have hstep : applyRemoteOperation st.elements_by_id (Operation.delete d)
              = st.elements_by_id := by
            simp [applyRemoteOperation, hd, hl]
          rw [hstep, hs]
    | noop r =>
      have hstep : applyRemoteOperation st.elements_by_id (Operation.noop r)
          = st.elements_by_id := rfl
      rw [hstep, hs]

/-- C4 (amended): starting from a fresh engine, after any sequence of local
inserts, local deletes and remote operations in which no remote insert
carries the sentinel id together with a true tombstone flag, HEAD is still
present, bound to the unmodified sentinel element (value and predecessor
intact) and not tombstoned.  The excluded crafted insert genuinely flips the
sentinel's tombstone flag — see the counterexample. -/
theorem C4_sentinel_invariant (site : String) (steps : List EngineStep)
    (h : steps.all stepKeepsSentinel = true) :
    alistLookup (runSteps (rgaInit site) steps).elements_by_id START_SENTINEL_ID
      = some sentinelElement := by
  suffices hgen : ∀ (l : List EngineStep) (st : RGAState),
      l.all stepKeepsSentinel = true →
      alistLookup st.elements_by_id START_SENTINEL_ID = some sentinelElement →
      0 ≤ st.local_clock →
      alistLookup (runSteps st l).elements_by_id START_SENTINEL_ID
        = some sentinelElement by
    exact hgen steps (rgaInit site) h rfl le_rfl
  intro l
  induction l with
  | nil =>
    intro st _ hs _
    exact hs
  | cons step rest ih =>
    intro st hall hs hclk
    rw [List.all_cons, Bool.and_eq_true] at hall
    obtain ⟨hs2, hclk2⟩ := runStep_sentinel st step hs hclk hall.1
    exact ih (runStep st step) hall.2 hs2 hclk2

/-- C4 witness: a concrete benign step sequence on a fresh engine — a local
insert, a local delete, a remote delete of the inserted id, a remote delete
aimed at the sentinel (ignored by the guard), and a remote noop. -/
theorem C4_sentinel_invariant_witness :
    ([EngineStep.localIns 0 "A" 1 1, EngineStep.localDel 0,
      EngineStep.remote (Operation.delete (1, "w")),
      EngineStep.remote (Operation.delete START_SENTINEL_ID),
      EngineStep.remote (Operation.noop "r")].all stepKeepsSentinel = true) ∧
    alistLookup (runSteps (rgaInit "w")
      [EngineStep.localIns 0 "A" 1 1, EngineStep.localDel 0,
       EngineStep.remote (Operation.delete (1, "w")),
       EngineStep.remote (Operation.delete START_SENTINEL_ID),
       EngineStep.remote (Operation.noop "r")]).elements_by_id START_SENTINEL_ID
      = some sentinelElement :=
  ⟨by decide,
    C4_sentinel_invariant "w"
      [EngineStep.localIns 0 "A" 1 1, EngineStep.localDel 0,
       EngineStep.remote (Operation.delete (1, "w")),
       EngineStep.remote (Operation.delete START_SENTINEL_ID),
       EngineStep.remote (Operation.noop "r")] (by decide)⟩

/-! ### Claim C6 -/

/-- C6 counterexample: local_delete on an empty (fresh) document raises
IndexError — it does not return a noop operation (the store is left
unchanged by the raise). -/
theorem C6_counterexample_empty_delete_raises :
    (localDelete (rgaInit "s") 0).1
      = Except.error (PyErr.indexError "Cannot delete from empty sequence") ∧
    (localDelete (rgaInit "s") 0).2 = rgaInit "s" := by
  have hvis : getOrderedVisibleElements (rgaInit "s").elements_by_id = [] := by
    simp [getOrderedVisibleElements, rgaInit, initialStore, START_SENTINEL_ID,
      sentinelElement, alistLookup, rgaTraverse_cons_found, rgaTraverse_cons_miss,
      rgaTraverse_cons_visited, rgaTraverse_nil, successorsSorted, storeValues,
      elemLe, idLe, List.insertionSort, List.orderedInsert]
  constructor
  · simp [localDelete, hvis]
  · simp [localDelete, hvis]

/-- C6 (amended): for every index at or beyond the visible length
(including the empty document), local_delete raises IndexError and leaves
the engine state unchanged; the noop returns exist only on the sentinel
guard and store-miss paths. -/
theorem C6_out_of_range_delete_raises (st : RGAState) (i : Int)
    (h : ((getOrderedVisibleElements st.elements_by_id).length : Int) ≤ i) :
    (∃ msg, (localDelete st i).1 = Except.error (PyErr.indexError msg)) ∧
    (localDelete st i).2 = st := by
  have hi : ¬ i < 0 := by
    have hlen : (0 : Int) ≤ ((getOrderedVisibleElements st.elements_by_id).length : Int) := by
      exact_mod_cast Nat.zero_le _
    omega
  simp only [localDelete]
  rw [if_neg hi]
  by_cases hemp : (getOrderedVisibleElements st.elements_by_id).isEmpty = true
  · rw [if_pos hemp]
    exact ⟨⟨"Cannot delete from empty sequence", rfl⟩, rfl⟩
  · rw [if_neg hemp, if_pos h]
    exact ⟨⟨"Deletion index out of bounds", rfl⟩, rfl⟩

/-- C6 witness: the amended statement applied to a fresh engine at index 0. -/
theorem C6_out_of_range_witness :
    (((getOrderedVisibleElements (rgaInit "s").elements_by_id).length : Int) ≤ 0) ∧
    (localDelete (rgaInit "s") 0).2 = rgaInit "s" := by
  have hvis : getOrderedVisibleElements (rgaInit "s").elements_by_id = [] := by
    simp [getOrderedVisibleElements, rgaInit, initialStore, START_SENTINEL_ID,
      sentinelElement, alistLookup, rgaTraverse_cons_found, rgaTraverse_cons_miss,
      rgaTraverse_cons_visited, rgaTraverse_nil, successorsSorted, storeValues,
      elemLe, idLe, List.insertionSort, List.orderedInsert]
  have hlen : (((getOrderedVisibleElements (rgaInit "s").elements_by_id).length : Int) ≤ 0) := by
    rw [hvis]
    simp
  exact ⟨hlen, (C6_out_of_range_delete_raises (rgaInit "s") 0 hlen).2⟩

/-! ### Claim C10 -/

/-- A wire-well-formed remote insert whose value is the two-character
string "xy". -/
def c10Elem : Element :=
  { id := (1, "a"), value := some "xy",
    predecessor_id := some START_SENTINEL_ID, is_tombstone := false }

/-- C10: local_insert rejects a two-character value with ValueError, but
apply_remote_operation performs no length validation: the element carrying
"xy" is stored as-is, and get_value() then returns a string whose length
(2) differs from the number of visible elements (1). -/
theorem C10_remote_insert_skips_length_validation :
    (localInsert (rgaInit "s") 0 "xy" 1 1).1
      = Except.error (PyErr.valueError "Insertion value must be a single character string.") ∧
    alistLookup (applyRemoteOperation initialStore (Operation.insert c10Elem)) (1, "a")
      = some c10Elem ∧
    getValue (applyRemoteOperation initialStore (Operation.insert c10Elem)) = "xy" ∧
    (getValue (applyRemoteOperation initialStore (Operation.insert c10Elem))).length = 2 ∧
    (getOrderedVisibleElements
      (applyRemoteOperation initialStore (Operation.insert c10Elem))).length = 1 := by
  have hval : getValue (applyRemoteOperation initialStore (Operation.insert c10Elem))
      = "xy" := by
    simp [getValue, getOrderedVisibleElements, applyRemoteOperation, c10Elem,
      initialStore, START_SENTINEL_ID, sentinelElement, alistLookup, alistInsert,
      rgaTraverse_cons_found, rgaTraverse_cons_miss, rgaTraverse_cons_visited,
      rgaTraverse_nil, successorsSorted, storeValues, elemLe, idLe,
      List.insertionSort, List.orderedInsert]
    decide
  have hvis : (getOrderedVisibleElements
      (applyRemoteOperation initialStore (Operation.insert c10Elem))).length = 1 := by
    simp [getOrderedVisibleElements, applyRemoteOperation, c10Elem,
      initialStore, START_SENTINEL_ID, sentinelElement, alistLookup, alistInsert,
      rgaTraverse_cons_found, rgaTraverse_cons_miss, rgaTraverse_cons_visited,
      rgaTraverse_nil, successorsSorted, storeValues, elemLe, idLe,
      List.insertionSort, List.orderedInsert]
  refine ⟨?_, by decide, hval, by rw [hval]; decide, hvis⟩
  simp [localInsert, show "xy".length ≠ 1 from by decide]

/-! ### Serialisation, snapshots and revert (server/main.py, rga.py) -/

/-- Serialized engine state.  The JSON map keys of `serialize_state`
("[clock, \"site\"]" strings) are modelled post-parse: `some id` stands for a
key string that `json.loads` + the tuple/shape validation of
`deserialize_state` accepts as the id `id`, `none` for any string those
steps reject; likewise a value is `some e` when `Element.from_dict`
succeeds and `none` when it raises (missing keys / bad shapes), both of
which the source skips with a warning. -/
structure SerializedState where
  site_id : Option String
  elements_by_id : List (Option ElementID × Option Element)
deriving DecidableEq

/-- RGA.serialize_state: every stored entry round-trips through a valid
key string and a valid element dict. -/
def serialize_state (st : RGAState) : SerializedState :=
  { site_id := some st.site_id,
    elements_by_id := st.elements_by_id.map (fun kv => (some kv.1, some kv.2)) }

/-- RGA.deserialize_state.  `freshSite` models the `str(uuid.uuid4())`
fallback used when the payload has no site_id.  The local clock is the
fresh engine's 0.0: the line restoring it is commented out in the source. -/
def deserialize_state (freshSite : String) (data : SerializedState) : RGAState :=
  let site := data.site_id.getD freshSite
  let deserialized := data.elements_by_id.foldl
    (fun acc kv =>
      match kv with
      | (some k, some e) => alistInsert acc k e
      | _ => acc) []
  let withHead :=
    if alistLookup deserialized START_SENTINEL_ID = none then
      alistInsert deserialized START_SENTINEL_ID sentinelElement
    else deserialized
  { site_id := site, elements_by_id := withHead, local_clock := 0 }

/-- Greatest clock among the stored element ids (0 for the empty store). -/
def maxIdClock (s : Store) : Rat :=
  (s.map (fun kv => kv.1.1)).foldl max 0

/-- server/main.py handle_revert_to_snapshot: a missing id or unknown
snapshot produces an error event (modelled as `none`); otherwise the global
engine is replaced by `RGA.deserialize_state(snapshots[id])`. -/
def handle_revert_to_snapshot (snapshots : List (String × SerializedState))
    (snapshot_id : Option String) (freshSite : String) : Option RGAState :=
  match snapshot_id with
  | none => none
  | some sid =>
    match alistLookup snapshots sid with
    | none => none
    | some ser => some (deserialize_state freshSite ser)

theorem alistInsert_eq_append_of_none {κ ν : Type} [DecidableEq κ]
    (s : List (κ × ν)) (k : κ) (v : ν) (h : alistLookup s k = none) :
    alistInsert s k v = s ++ [(k, v)] := by
  induction s with
  | nil => simp
  | cons hd tl ih =>
    rw [alistLookup_cons] at h
    by_cases hc : hd.1 = k
    · rw [if_pos hc] at h
      cases h
    · rw [if_neg hc] at h
      rw [alistInsert_cons, if_neg hc]
      simp [ih h]

theorem alistLookup_append {κ ν : Type} [DecidableEq κ]
    (s1 s2 : List (κ × ν)) (k : κ) :
    alistLookup (s1 ++ s2) k
      = match alistLookup s1 k with
        | some v => some v
        | none => alistLookup s2 k := by
  induction s1 with
  | nil => simp
  | cons hd tl ih =>
    by_cases hc : hd.1 = k
    · simp [hc]
    · simp [hc, ih]

/-- Rebuilding a nodup-keyed entry list by repeated dict insertion starting
from an accumulator with disjoint keys appends the list. -/
theorem foldl_rebuild (l : Store) :
    ∀ acc : Store, (l.map Prod.fst).Nodup →
    (∀ k, k ∈ l.map Prod.fst → alistLookup acc k = none) →
    (l.map (fun kv => ((some kv.1 : Option ElementID), (some kv.2 : Option Element)))).foldl
      (fun acc kv =>
        match kv with
        | (some k, some e) => alistInsert acc k e
        | _ => acc) acc = acc ++ l := by
  induction l with
  | nil =>
    intro acc _ _
    simp
  | cons hd tl ih =>
    intro acc hnd hdisj
    simp only [List.map_cons, List.nodup_cons] at hnd
    simp only [List.map_cons, List.mem_cons] at hdisj
    rw [List.map_cons, List.foldl_cons]
    have hlk : alistLookup acc hd.1 = none := hdisj hd.1 (Or.inl rfl)
    have hstep : (match ((some hd.1 : Option ElementID), (some hd.2 : Option Element)) with
        | (some k, some e) => alistInsert acc k e
        | _ => acc) = acc ++ [(hd.1, hd.2)] := by
      simpa using alistInsert_eq_append_of_none acc hd.1 hd.2 hlk
    rw [hstep]
    have hdisj2 : ∀ k, k ∈ tl.map Prod.fst →
        alistLookup (acc ++ [(hd.1, hd.2)]) k = none := by
      intro k hk
      rw [alistLookup_append]
      rw [hdisj k (Or.inr hk)]
      have hkne : ¬ hd.1 = k := by
        intro he
        exact hnd.1 (he ▸ hk)
      simp [hkne]
    have := ih (acc ++ [(hd.1, hd.2)]) hnd.2 hdisj2
    rw [this]
    simp [Prod.mk.eta]

/-! ### Claim C7 -/

/-- Concrete serialized state whose single non-sentinel element has
clock 5. -/
def c7Ser : SerializedState :=
  { site_id := some "s7",
    elements_by_id :=
      [(some START_SENTINEL_ID, some sentinelElement),
       (some ((5 : Rat), "s7"),
        some { id := (5, "s7"), value := some "h",
               predecessor_id := some START_SENTINEL_ID, is_tombstone := false })] }

/-- C7 counterexample: deserialize_state leaves the engine's local clock at
0.0 (the restoring assignment is commented out in the source), even though
the maximum clock among the deserialized ids is 5; the revert handler
inherits the same behaviour. -/
theorem C7_counterexample_clock_not_restored :
    (deserialize_state "fresh" c7Ser).local_clock = 0 ∧
    maxIdClock (deserialize_state "fresh" c7Ser).elements_by_id = 5 ∧
    (deserialize_state "fresh" c7Ser).local_clock
      ≠ maxIdClock (deserialize_state "fresh" c7Ser).elements_by_id ∧
    (handle_revert_to_snapshot [("t", c7Ser)] (some "t") "fresh").map RGAState.local_clock
      = some 0 := by
  have hmax : maxIdClock (deserialize_state "fresh" c7Ser).elements_by_id = 5 := by
    simp [maxIdClock, deserialize_state, c7Ser, alistInsert, alistLookup,
      START_SENTINEL_ID, sentinelElement, max_def]
  refine ⟨rfl, hmax, ?_, rfl⟩
  rw [hmax]
  show ¬ (0 : Rat) = 5
  norm_num

/-- C7 (amended): deserialize_state rebuilds the store from the decodable
entries, reinserts HEAD when missing, carries the serialized site_id over
(falling back to a fresh uuid), but RESETS the local clock to 0.0 rather
than to the maximum id clock; the snapshot revert path, which goes through
deserialize_state, leaves the reverted engine's clock at 0.0 as well. -/
theorem C7_deserialize_rebuilds_store_clock_zero (st : RGAState) (fresh : String)
    (data : SerializedState) (snapshots : List (String × SerializedState))
    (sid : Option String) (stR : RGAState)
    (hnd : (st.elements_by_id.map Prod.fst).Nodup)
    (hhead : alistLookup st.elements_by_id START_SENTINEL_ID ≠ none)
    (hrev : handle_revert_to_snapshot snapshots sid fresh = some stR) :
    deserialize_state fresh (serialize_state st)
      = { site_id := st.site_id, elements_by_id := st.elements_by_id, local_clock := 0 } ∧
    (deserialize_state fresh data).site_id = data.site_id.getD fresh ∧
    (deserialize_state fresh data).local_clock = 0 ∧
    alistLookup (deserialize_state fresh data).elements_by_id START_SENTINEL_ID ≠ none ∧
    stR.local_clock = 0 := by
  refine ⟨?_, rfl, rfl, ?_, ?_⟩
  · have hfold := foldl_rebuild st.elements_by_id [] hnd (by intro k _; simp)
    unfold deserialize_state serialize_state
    simp only [List.nil_append] at hfold
    simp only [hfold]
    rw [if_neg hhead]
    rfl
  · simp only [deserialize_state]
    by_cases hc : alistLookup
        (data.elements_by_id.foldl
          (fun acc kv =>
            match kv with
            | (some k, some e) => alistInsert acc k e
            | _ => acc) []) START_SENTINEL_ID = none
    · rw [if_pos hc, lookup_alistInsert_self]
      simp
    · rw [if_neg hc]
      exact hc
  · cases sid with
    | none => cases hrev
    | some s =>
      rw [handle_revert_to_snapshot] at hrev
      cases hl : alistLookup snapshots s with
      | none =>
        rw [hl] at hrev
        cases hrev
      | some ser =>
        rw [hl] at hrev
        injection hrev with he
        rw [← he]
        rfl

/-- C7 witness: the amended statement at a concrete engine (fresh engine
with one insert applied), a concrete payload and a concrete snapshot
table. -/
theorem C7_deserialize_witness :
    ((applyRemoteState (rgaInit "s7") (Operation.insert c2Elem)).elements_by_id.map
        Prod.fst).Nodup ∧
    deserialize_state "fresh"
        (serialize_state (applyRemoteState (rgaInit "s7") (Operation.insert c2Elem)))
      = { site_id := "s7",
          elements_by_id :=
            (applyRemoteState (rgaInit "s7") (Operation.insert c2Elem)).elements_by_id,
          local_clock := 0 } := by
  refine ⟨by decide, ?_⟩
  have h := C7_deserialize_rebuilds_store_clock_zero
    (applyRemoteState (rgaInit "s7") (Operation.insert c2Elem)) "fresh"
    (serialize_state (applyRemoteState (rgaInit "s7") (Operation.insert c2Elem)))
    [("t", c7Ser)] (some "t") (deserialize_state "fresh" c7Ser)
    (by decide) (by decide) rfl
  exact h.1

/-! ### Claim C9 -/

/-- Broken-down wall-clock time as consumed by time.strftime: second
granularity, no sub-second field (time.struct_time). -/
structure StructTime where
  year : Nat
  month : Nat
  day : Nat
  hour : Nat
  minute : Nat
  second : Nat
deriving DecidableEq

/-- Zero-padding to two digits (strftime %m %d %H %M %S). -/
def pad2 (n : Nat) : String :=
  if n < 10 then "0" ++ toString n else toString n

/-- Zero-padding to four digits (strftime %Y). -/
def pad4 (n : Nat) : String :=
  if n < 10 then "000" ++ toString n
  else if n < 100 then "00" ++ toString n
  else if n < 1000 then "0" ++ toString n
  else toString n

/-- time.strftime("%Y-%m-%d_%H-%M-%S"): whole-second snapshot ids. -/
def formatSnapshotId (t : StructTime) : String :=
  pad4 t.year ++ "-" ++ pad2 t.month ++ "-" ++ pad2 t.day ++ "_" ++
    pad2 t.hour ++ "-" ++ pad2 t.minute ++ "-" ++ pad2 t.second

/-- server/main.py handle_create_snapshot: store the serialized engine
under the formatted timestamp and emit the key list sorted newest-first. -/
def handle_create_snapshot (snapshots : List (String × SerializedState))
    (doc : RGAState) (t : StructTime) :
    List (String × SerializedState) × List String :=
  let snapshot_id := formatSnapshotId t
  let snapshots2 := alistInsert snapshots snapshot_id (serialize_state doc)
  (snapshots2, List.insertionSort (fun a b : String => b ≤ a) (snapshots2.map Prod.fst))

theorem alistInsert_length_of_mem {κ ν : Type} [DecidableEq κ]
    (s : List (κ × ν)) (k : κ) (v : ν) (h : alistLookup s k ≠ none) :
    (alistInsert s k v).length = s.length := by
  induction s with
  | nil => simp at h
  | cons hd tl ih =>
    rw [alistLookup_cons] at h
    by_cases hc : hd.1 = k
    · simp [hc]
    · rw [if_neg hc] at h
      simp [hc, ih h]

/-- C9: snapshot ids have whole-second granularity, so two
create_snapshot requests handled at the same wall-clock second use the
same key: the second request adds no new entry to the snapshot map and
replaces the state captured by the first, which is thereby lost. -/
theorem C9_same_second_snapshot_overwrites (snapshots : List (String × SerializedState))
    (doc1 doc2 : RGAState) (t : StructTime) :
    ((handle_create_snapshot (handle_create_snapshot snapshots doc1 t).1 doc2 t).1).length
      = ((handle_create_snapshot snapshots doc1 t).1).length ∧
    alistLookup (handle_create_snapshot (handle_create_snapshot snapshots doc1 t).1 doc2 t).1
        (formatSnapshotId t) = some (serialize_state doc2) ∧
    alistLookup (handle_create_snapshot snapshots doc1 t).1 (formatSnapshotId t)
      = some (serialize_state doc1) := by
  refine ⟨?_, ?_, ?_⟩
  · apply alistInsert_length_of_mem
    rw [show ((handle_create_snapshot snapshots doc1 t).1 : List (String × SerializedState))
        = alistInsert snapshots (formatSnapshotId t) (serialize_state doc1) from rfl]
    rw [lookup_alistInsert_self]
    intro hcon
    cases hcon
  · exact lookup_alistInsert_self _ _ _
  · exact lookup_alistInsert_self _ _ _

/-! ### Claim C8: wire-level apply_remote_operation -/

/-- JSON-decodable Python values. -/
inductive PyVal where
  | pynone
  | pybool (b : Bool)
  | pynum (q : Rat)
  | pystr (s : String)
  | pylist (xs : List PyVal)
  | pydict (entries : List (String × PyVal))

/-- Python truthiness. -/
def pyTruthy : PyVal → Bool
  | .pynone => false
  | .pybool b => b
  | .pynum q => decide (q ≠ 0)
  | .pystr s => decide (s ≠ "")
  | .pylist xs => !xs.isEmpty
  | .pydict es => !es.isEmpty

/-- dict.get on string-keyed dicts. -/
def pyGet (d : List (String × PyVal)) (k : String) : Option PyVal :=
  alistLookup d k

/-- tuple(x): lists keep their items, strings iterate to characters, dicts
iterate to their keys; None, bools and numbers are not iterable, so
tuple() raises TypeError (`none` - caught by every caller here). -/
def pyTuple : PyVal → Option (List PyVal)
  | .pylist xs => some xs
  | .pystr s => some (s.data.map (fun c => PyVal.pystr (String.singleton c)))
  | .pydict es => some (es.map (fun kv => PyVal.pystr kv.1))
  | _ => none

/-- hash(x) succeeds: lists and dicts are unhashable. -/
def pyHashable : PyVal → Bool
  | .pylist _ => false
  | .pydict _ => false
  | _ => true

/-- Python == restricted to the hashable atoms that can appear inside an
id tuple that passed the hash check (True == 1 and False == 0 included);
nested containers never reach a key comparison because hashing them
raises first. -/
def pyValBeq : PyVal → PyVal → Bool
  | .pynone, .pynone => true
  | .pybool a, .pybool b => a == b
  | .pybool a, .pynum q => (cond a (1 : Rat) 0) == q
  | .pynum q, .pybool a => q == (cond a (1 : Rat) 0)
  | .pynum a, .pynum b => a == b
  | .pystr a, .pystr b => a == b
  | _, _ => false

/-- Tuple equality, element-wise. -/
def pyListBeq : List PyVal → List PyVal → Bool
  | [], [] => true
  | x :: xs, y :: ys => pyValBeq x y && pyListBeq xs ys
  | _, _ => false

/-- op_type == "insert" / "delete": only a str can equal a str literal. -/
def pyEqStr : PyVal → String → Bool
  | .pystr t, s => t == s
  | _, _ => false

/-- element_id == START_SENTINEL_ID, i.e. == (-1.0, "START"). -/
def isSentinelTuple : List PyVal → Bool
  | [a, b] => pyValBeq a (.pynum (-1)) && pyValBeq b (.pystr "START")
  | _ => false

/-- Wire-level stored element: the fields exactly as Element.from_dict
leaves them (value and is_tombstone are stored raw, not validated). -/
structure WElement where
  id : List PyVal
  value : PyVal
  predecessor_id : Option (List PyVal)
  is_tombstone : PyVal

/-- Wire-level element store keyed by decoded id tuples. -/
abbrev WStore := List (List PyVal × WElement)

/-- Wire-level dict lookup (Python tuple-key equality). -/
def wLookup (s : WStore) (k : List PyVal) : Option WElement :=
  match s with
  | [] => none
  | (k', v) :: rest => if pyListBeq k' k then some v else wLookup rest k

/-- Wire-level dict assignment: replace in place or append. -/
def wInsert (s : WStore) (k : List PyVal) (v : WElement) : WStore :=
  match s with
  | [] => [(k, v)]
  | (k', v') :: rest =>
    if pyListBeq k' k then (k, v) :: rest else (k', v') :: wInsert rest k v

/-- In-place `existing.is_tombstone = True`. -/
def wSetTombstone (s : WStore) (k : List PyVal) : WStore :=
  s.map (fun kv =>
    if pyListBeq kv.1 k then (kv.1, { kv.2 with is_tombstone := PyVal.pybool true }) else kv)

/-- Element.from_dict followed by the deserialization shape checks of the
fresh-insert path and the store assignment (rga.py:323-335); every caught
exception (missing "value" key, wrong-length ids) is a logged drop. -/
def wireFromDictInsert (s : WStore) (ed : List (String × PyVal))
    (elementId : List PyVal) (predecessorId : Option (List PyVal)) : Except PyErr WStore :=
  match pyGet ed "value" with
  | none => .ok s
  | some v =>
    if elementId.length ≠ 2 then .ok s
    else
      match predecessorId with
      | some p =>
        if p.length ≠ 2 then .ok s
        else .ok (wInsert s elementId
          { id := elementId, value := v, predecessor_id := some p,
            is_tombstone := (pyGet ed "is_tombstone").getD (.pybool false) })
      | none => .ok (wInsert s elementId
          { id := elementId, value := v, predecessor_id := none,
            is_tombstone := (pyGet ed "is_tombstone").getD (.pybool false) })

/-- RGA.apply_remote_operation (rga.py:280-369) on a raw JSON-decoded
operation dictionary.  `.error` models an exception escaping the function:
the only one is the TypeError raised by hashing an id tuple that contains
a list or dict (the `in` tests at rga.py:299 and rga.py:315, outside every
try block).  `.ok` covers both integrations and logged-and-dropped
operations. -/
def wireApplyRemoteOperation (s : WStore) (op : List (String × PyVal)) :
    Except PyErr WStore :=
  let opType := (pyGet op "type").getD .pynone
  if pyEqStr opType "insert" then
    match (pyGet op "element").getD .pynone with
    | .pydict ed =>
      if ed.isEmpty then .ok s
      else
        match pyGet ed "id" with
        | none => .ok s
        | some idRaw =>
          match pyTuple idRaw with
          | none => .ok s
          | some elementId =>
            match pyGet ed "predecessor_id" with
            | none => .ok s
            | some predRaw =>
              match (if pyTruthy predRaw then (pyTuple predRaw).map some
                     else some Option.none) with
              | none => .ok s
              | some predecessorId =>
                if !(elementId.all pyHashable) then
                  .error (.typeError "unhashable type")
                else
                  match wLookup s elementId with
                  | some existing =>
                    if !(pyTruthy existing.is_tombstone)
                        && pyTruthy ((pyGet ed "is_tombstone").getD (.pybool false)) then
                      .ok (wSetTombstone s elementId)
                    else .ok s
                  | none =>
                    match predecessorId with
                    | some p =>
                      if !(p.all pyHashable) then .error (.typeError "unhashable type")
                      else if (wLookup s p).isNone then .ok s
                      else wireFromDictInsert s ed elementId (some p)
                    | none => wireFromDictInsert s ed elementId none
    | _ => .ok s
  else if pyEqStr opType "delete" then
    let raw := (pyGet op "element_id").getD .pynone
    if !(pyTruthy raw) then .ok s
    else
      match pyTuple raw with
      | none => .ok s
      | some eid =>
        if eid.length ≠ 2 then .ok s
        else if isSentinelTuple eid then .ok s
        else if !(eid.all pyHashable) then .error (.typeError "unhashable type")
        else
          match wLookup s eid with
          | some _ => .ok (wSetTombstone s eid)
          | none => .ok s
  else .ok s

/-- A str cannot equal both "insert" and "delete". -/
theorem pyEqStr_exclusive (v : PyVal) (hd : pyEqStr v "delete" = true)
    (hi : pyEqStr v "insert" = true) : False := by
  cases v
  case pystr s =>
    have h1 : (s == "insert") = true := hi
    have h2 : (s == "delete") = true := hd
    rw [beq_iff_eq] at h1 h2
    rw [h1] at h2
    exact absurd h2 (by decide)
  all_goals exact Bool.noConfusion hi

/-- Wire store holding one live element under key (1.0, "a"). -/
def c8Store : WStore :=
  [([.pynum 1, .pystr "a"],
    { id := [.pynum 1, .pystr "a"], value := .pystr "x",
      predecessor_id := some [.pynum (-1), .pystr "START"],
      is_tombstone := .pybool false })]

/-- Delete operation whose id tuple contains a (unhashable) list. -/
def c8BadDelete : List (String × PyVal) :=
  [("type", .pystr "delete"),
   ("element_id", .pylist [.pylist [.pynum 1], .pystr "x"])]

/-- Insert operation that is malformed per the wire format (its element
dict has no "value" field) yet names an existing id and carries a truthy
is_tombstone flag. -/
def c8ValuelessInsert : List (String × PyVal) :=
  [("type", .pystr "insert"),
   ("element", .pydict
     [("id", .pylist [.pynum 1, .pystr "a"]),
      ("predecessor_id", .pynone),
      ("is_tombstone", .pybool true)])]

/-- C8 counterexample: (a) a delete whose decoded id tuple contains a
nested list escapes apply_remote_operation with an uncaught TypeError,
raised when the `in` test hashes the id - so the function does not return
normally for every dictionary-shaped operation; (b) an insert missing its
"value" field - malformed per the wire format - still mutates the store:
the duplicate-id merge branch runs before Element.from_dict and tombstones
the stored element. -/
theorem C8_counterexample_raise_and_malformed_mutation :
    wireApplyRemoteOperation c8Store c8BadDelete
      = Except.error (PyErr.typeError "unhashable type") ∧
    wireApplyRemoteOperation c8Store c8ValuelessInsert
      = Except.ok (wSetTombstone c8Store [.pynum 1, .pystr "a"]) ∧
    (wLookup (wSetTombstone c8Store [.pynum 1, .pystr "a"])
        [.pynum 1, .pystr "a"]).map WElement.is_tombstone
      = some (PyVal.pybool true) ∧
    (wLookup c8Store [.pynum 1, .pystr "a"]).map WElement.is_tombstone
      = some (PyVal.pybool false) :=
  ⟨rfl, rfl, rfl, rfl⟩

/-- The amended precondition: every id tuple the operation's fields decode
to contains only hashable components. -/
def wireIdsHashable (op : List (String × PyVal)) : Bool :=
  (match (pyGet op "element").getD .pynone with
   | .pydict ed =>
     (match pyGet ed "id" with
      | some idRaw =>
        match pyTuple idRaw with
        | some l => l.all pyHashable
        | none => true
      | none => true) &&
     (match pyGet ed "predecessor_id" with
      | some predRaw =>
        if pyTruthy predRaw then
          match pyTuple predRaw with
          | some l => l.all pyHashable
          | none => true
        else true
      | none => true)
   | _ => true) &&
  (match pyTuple ((pyGet op "element_id").getD .pynone) with
   | some l => l.all pyHashable
   | none => true)

/-- C8 (amended): apply_remote_operation returns without raising for every
dictionary-shaped operation whose decoded id tuples contain only hashable
components, and every operation its validation drops leaves the element
store unchanged: unknown type tags; insert payloads whose element is
absent, empty or not a dict; inserts with a missing or undecodable id;
deletes with a falsy, undecodable or wrong-length target.  (A value-less
duplicate insert is NOT dropped: see the counterexample.) -/
theorem C8_no_raise_when_hashable (s : WStore) (op : List (String × PyVal))
    (h : wireIdsHashable op = true) :
    (∃ s2, wireApplyRemoteOperation s op = .ok s2) ∧
    (¬ pyEqStr ((pyGet op "type").getD .pynone) "insert" = true →
     ¬ pyEqStr ((pyGet op "type").getD .pynone) "delete" = true →
     wireApplyRemoteOperation s op = .ok s) ∧
    (pyEqStr ((pyGet op "type").getD .pynone) "insert" = true →
     (∀ ed, (pyGet op "element").getD .pynone ≠ .pydict ed) →
     wireApplyRemoteOperation s op = .ok s) ∧
    (∀ ed, pyEqStr ((pyGet op "type").getD .pynone) "insert" = true →
      (pyGet op "element").getD .pynone = .pydict ed →
      ed.isEmpty = true →
      wireApplyRemoteOperation s op = .ok s) ∧
    (∀ ed, pyEqStr ((pyGet op "type").getD .pynone) "insert" = true →
      (pyGet op "element").getD .pynone = .pydict ed →
      pyGet ed "id" = none →
      wireApplyRemoteOperation s op = .ok s) ∧
    (∀ ed idRaw, pyEqStr ((pyGet op "type").getD .pynone) "insert" = true →
      (pyGet op "element").getD .pynone = .pydict ed →
      pyGet ed "id" = some idRaw →
      pyTuple idRaw = none →
      wireApplyRemoteOperation s op = .ok s) ∧
    (pyEqStr ((pyGet op "type").getD .pynone) "delete" = true →
      pyTruthy ((pyGet op "element_id").getD .pynone) = false →
      wireApplyRemoteOperation s op = .ok s) ∧
    (pyEqStr ((pyGet op "type").getD .pynone) "delete" = true →
      pyTuple ((pyGet op "element_id").getD .pynone) = none →
      wireApplyRemoteOperation s op = .ok s) ∧
    (∀ eid, pyEqStr ((pyGet op "type").getD .pynone) "delete" = true →
      pyTuple ((pyGet op "element_id").getD .pynone) = some eid →
      eid.length ≠ 2 →
      wireApplyRemoteOperation s op = .ok s) := by
  rw [wireIdsHashable, Bool.and_eq_true] at h
  refine ⟨?_, ?_, ?_, ?_, ?_, ?_, ?_, ?_, ?_⟩
  · simp only [wireApplyRemoteOperation]
    split
    · split
      · rename_i ed hed
        simp only [hed, Bool.and_eq_true] at h
        split
        · exact ⟨s, rfl⟩
        · split
          · exact ⟨s, rfl⟩
          · rename_i idRaw hid
            simp only [hid] at h
            split
            · exact ⟨s, rfl⟩
            · rename_i elementId htup
              simp only [htup] at h
              split
              · exact ⟨s, rfl⟩
              · rename_i predRaw hpredget
                simp only [hpredget] at h
                split
                · exact ⟨s, rfl⟩
                · rename_i predecessorId hpredtup
                  rw [if_neg (by rw [h.1.1]; simp)]
                  split
                  · split
                    · exact ⟨_, rfl⟩
                    · exact ⟨s, rfl⟩
                  · cases predecessorId with
                    | some p =>
                      have hph : p.all pyHashable = true := by
                        cases hb : pyTruthy predRaw with
                        | false =>
                          simp [hb] at hpredtup
                        | true =>
                          have h2 := h.1.2
                          simp only [hb, if_true] at hpredtup h2
                          cases htp : pyTuple predRaw with
                          | none =>
                            simp [htp] at hpredtup
                          | some l =>
                            simp only [htp] at h2
                            simp [htp] at hpredtup
                            subst hpredtup
                            exact h2
                      simp only [hph, Bool.not_true, Bool.false_eq_true, if_false]
                      split
                      · exact ⟨s, rfl⟩
                      · simp only [wireFromDictInsert]
                        split
                        · exact ⟨s, rfl⟩
                        · split
                          · exact ⟨s, rfl⟩
                          · split
                            · exact ⟨s, rfl⟩
                            · exact ⟨_, rfl⟩
                    | none =>
                      simp only [wireFromDictInsert]
                      split
                      · exact ⟨s, rfl⟩
                      · split
                        · exact ⟨s, rfl⟩
                        · exact ⟨_, rfl⟩
      · exact ⟨s, rfl⟩
    · split
      · split
        · exact ⟨s, rfl⟩
        · split
          · exact ⟨s, rfl⟩
          · rename_i eid htup
            have h2 := h.2
            simp only [htup] at h2
            split
            · exact ⟨s, rfl⟩
            · split
              · exact ⟨s, rfl⟩
              · rw [if_neg (by rw [h2]; simp)]
                split
                · exact ⟨_, rfl⟩
                · exact ⟨s, rfl⟩
      · exact ⟨s, rfl⟩
  · intro hni hnd
    simp only [wireApplyRemoteOperation]
    rw [if_neg hni, if_neg hnd]
  · intro hins hne
    simp only [wireApplyRemoteOperation]
    rw [if_pos hins]
  · intro ed hins hed hempty
    simp only [wireApplyRemoteOperation]
    rw [if_pos hins]
    simp only [hed]
    rw [if_pos hempty]
  · intro ed hins hed hid
    simp only [wireApplyRemoteOperation]
    rw [if_pos hins]
    simp only [hed, hid]
    split
    · rfl
    · rfl
  · intro ed idRaw hins hed hid htp
    simp only [wireApplyRemoteOperation]
    rw [if_pos hins]
    simp only [hed, hid, htp]
    split
    · rfl
    · rfl
  · intro hdel hfalsy
    have hni : ¬ pyEqStr ((pyGet op "type").getD .pynone) "insert" = true :=
      fun hi => pyEqStr_exclusive _ hdel hi
    simp only [wireApplyRemoteOperation]
    rw [if_neg hni, if_pos hdel]
    simp [hfalsy]
  · intro hdel htup
    have hni : ¬ pyEqStr ((pyGet op "type").getD .pynone) "insert" = true :=
      fun hi => pyEqStr_exclusive _ hdel hi
    simp only [wireApplyRemoteOperation]
    rw [if_neg hni, if_pos hdel]
    split
    · rfl
    · rw [htup]
  · intro eid hdel htup hlen
    have hni : ¬ pyEqStr ((pyGet op "type").getD .pynone) "insert" = true :=
      fun hi => pyEqStr_exclusive _ hdel hi
    simp only [wireApplyRemoteOperation]
    rw [if_neg hni, if_pos hdel]
    split
    · rfl
    · simp only [htup]
      rw [if_pos hlen]

/-- C8 witness: a well-shaped fresh insert with hashable ids applied to
the one-element wire store returns normally. -/
theorem C8_no_raise_witness :
    wireIdsHashable
      [("type", .pystr "insert"),
       ("element", .pydict
         [("id", .pylist [.pynum 2, .pystr "b"]),
          ("value", .pystr "y"),
          ("predecessor_id", .pylist [.pynum 1, .pystr "a"]),
          ("is_tombstone", .pybool false)])] = true ∧
    ∃ s2, wireApplyRemoteOperation c8Store
      [("type", .pystr "insert"),
       ("element", .pydict
         [("id", .pylist [.pynum 2, .pystr "b"]),
          ("value", .pystr "y"),
          ("predecessor_id", .pylist [.pynum 1, .pystr "a"]),
          ("is_tombstone", .pybool false)])] = .ok s2 :=
  ⟨rfl,
    (C8_no_raise_when_hashable c8Store
      [("type", .pystr "insert"),
       ("element", .pydict
         [("id", .pylist [.pynum 2, .pystr "b"]),
          ("value", .pystr "y"),
          ("predecessor_id", .pylist [.pynum 1, .pystr "a"]),
          ("is_tombstone", .pybool false)])] rfl).1⟩

/-! ### Claim C5: the text_change handler (server/main.py handle_text_change)

The handler diffs the server text against the client text with
difflib.SequenceMatcher(None, server_text, client_text, autojunk=False)
and replays the diff through local_delete / local_insert.  The embedding
below follows CPython's difflib: isjunk is None and autojunk is False, so
the junk machinery is everywhere empty.  Loops whose Python form is a
while are given an explicit fuel argument that provably dominates their
iteration count, so every definition is structural and evaluates. -/

/-- difflib __chain_b: b2j maps each element of b to its ascending list of
positions (setdefault/append builds insertion order, which is ascending). -/
def b2jAdd (d : List (Char × List Nat)) (c : Char) (i : Nat) : List (Char × List Nat) :=
  match d with
  | [] => [(c, [i])]
  | (c', l) :: rest => if c' = c then (c', l ++ [i]) :: rest else (c', l) :: b2jAdd rest c i

/-- b2j for the whole of b. -/
def mkB2j (b : List Char) : List (Char × List Nat) :=
  b.enum.foldl (fun d ic => b2jAdd d ic.2 ic.1) []

/-- find_longest_match inner loop: for j in b2j.get(a[i], []); continue on
j < blo, break on j >= bhi.  Python reads j2len.get(j-1, 0): when j = 0
the key is -1, which is never present, hence the explicit 0 case. -/
def flmInner (j2len : List (Nat × Nat)) (blo bhi i : Nat) :
    List Nat → List (Nat × Nat) → Nat × Nat × Nat → List (Nat × Nat) × (Nat × Nat × Nat)
  | [], newj2len, best => (newj2len, best)
  | j :: js, newj2len, best =>
    if j < blo then flmInner j2len blo bhi i js newj2len best
    else if bhi ≤ j then (newj2len, best)
    else
      let k := (if j = 0 then 0 else (alistLookup j2len (j - 1)).getD 0) + 1
      let newj2len2 := alistInsert newj2len j k
      if best.2.2 < k then
        flmInner j2len blo bhi i js newj2len2 (i + 1 - k, j + 1 - k, k)
      else
        flmInner j2len blo bhi i js newj2len2 best

/-- find_longest_match outer loop: for i in range(alo, ahi), threading
j2len and the best triple (besti, bestj, bestsize). -/
def flmOuter (a : List Char) (bj : List (Char × List Nat)) (blo bhi : Nat) :
    List Nat → List (Nat × Nat) → Nat × Nat × Nat → Nat × Nat × Nat
  | [], _, best => best
  | i :: rest, j2len, best =>
    let step := flmInner j2len blo bhi i ((alistLookup bj (a.getD i ' ')).getD []) [] best
    flmOuter a bj blo bhi rest step.1 step.2

/-- find_longest_match left extension: while besti > alo and bestj > blo
and a[besti-1] == b[bestj-1] (the junk variant never fires: no junk).
The fuel dominates the iteration count: each step needs alo < besti and
decrements besti, so besti-many steps suffice. -/
def extendLeft (a b : List Char) (alo blo : Nat) :
    Nat → Nat → Nat → Nat → Nat × Nat × Nat
  | 0, besti, bestj, bestsize => (besti, bestj, bestsize)
  | fuel + 1, besti, bestj, bestsize =>
    if alo < besti ∧ blo < bestj ∧ a.getD (besti - 1) ' ' = b.getD (bestj - 1) ' ' then
      extendLeft a b alo blo fuel (besti - 1) (bestj - 1) (bestsize + 1)
    else (besti, bestj, bestsize)

/-- find_longest_match right extension: while besti+bestsize < ahi and
bestj+bestsize < bhi and a[besti+bestsize] == b[bestj+bestsize].  Each
step needs besti + bestsize < ahi and increments bestsize, so ahi-many
steps suffice. -/
def extendRight (a b : List Char) (ahi bhi : Nat) :
    Nat → Nat → Nat → Nat → Nat
  | 0, _, _, bestsize => bestsize
  | fuel + 1, besti, bestj, bestsize =>
    if besti + bestsize < ahi ∧ bestj + bestsize < bhi ∧
        a.getD (besti + bestsize) ' ' = b.getD (bestj + bestsize) ' ' then
      extendRight a b ahi bhi fuel besti bestj (bestsize + 1)
    else bestsize

/-- difflib.SequenceMatcher.find_longest_match(alo, ahi, blo, bhi). -/
def findLongestMatch (a b : List Char) (bj : List (Char × List Nat))
    (alo ahi blo bhi : Nat) : Nat × Nat × Nat :=
  let dp := flmOuter a bj blo bhi (List.range' alo (ahi - alo)) [] (alo, blo, 0)
  let ext := extendLeft a b alo blo dp.1 dp.1 dp.2.1 dp.2.2
  (ext.1, ext.2.1, extendRight a b ahi bhi ahi ext.1 ext.2.1 ext.2.2)

/-- get_matching_blocks main loop.  Python uses a list as a LIFO queue
(append then pop from the end); the head of our list is the end of
Python's.  The right subrange is appended second, so it is popped first:
cons the left range, then the right range.  Each popped range of size
n = (ahi-alo)+(bhi-blo) contributes at most n to the sizes of the pushed
subranges (k >= 1 is lost), so the sum of (size+1) over the queue strictly
decreases and fuel la+lb+1 dominates the iteration count. -/
def gmbLoop (a b : List Char) (bj : List (Char × List Nat)) :
    Nat → List (Nat × Nat × Nat × Nat) → List (Nat × Nat × Nat) → List (Nat × Nat × Nat)
  | 0, _, acc => acc
  | _ + 1, [], acc => acc
  | fuel + 1, (alo, ahi, blo, bhi) :: queue, acc =>
    let m := findLongestMatch a b bj alo ahi blo bhi
    if m.2.2 ≠ 0 then
      let q1 := if alo < m.1 ∧ blo < m.2.1 then (alo, m.1, blo, m.2.1) :: queue else queue
      let q2 := if m.1 + m.2.2 < ahi ∧ m.2.1 + m.2.2 < bhi then
                  (m.1 + m.2.2, ahi, m.2.1 + m.2.2, bhi) :: q1
                else q1
      gmbLoop a b bj fuel q2 (acc ++ [m])
    else gmbLoop a b bj fuel queue acc

/-- list.sort() on match triples: lexicographic tuple comparison. -/
def tripleLe (x y : Nat × Nat × Nat) : Prop :=
  x.1 < y.1 ∨ (x.1 = y.1 ∧ (x.2.1 < y.2.1 ∨ (x.2.1 = y.2.1 ∧ x.2.2 ≤ y.2.2)))

instance (x y : Nat × Nat × Nat) : Decidable (tripleLe x y) := by
  unfold tripleLe
  infer_instance

/-- get_matching_blocks adjacency merge: running (i1, j1, k1), absorb each
adjacent block, emit on discontinuity, emit the leftover if nonempty. -/
def mergeAdjacent : List (Nat × Nat × Nat) → Nat → Nat → Nat → List (Nat × Nat × Nat)
  | [], i1, j1, k1 => if k1 ≠ 0 then [(i1, j1, k1)] else []
  | (i2, j2, k2) :: rest, i1, j1, k1 =>
    if i1 + k1 = i2 ∧ j1 + k1 = j2 then mergeAdjacent rest i1 j1 (k1 + k2)
    else if k1 ≠ 0 then (i1, j1, k1) :: mergeAdjacent rest i2 j2 k2
    else mergeAdjacent rest i2 j2 k2

/-- difflib.SequenceMatcher.get_matching_blocks, with the trailing
(la, lb, 0) sentinel. -/
def getMatchingBlocks (a b : List Char) : List (Nat × Nat × Nat) :=
  let blocks := gmbLoop a b (mkB2j b) (a.length + b.length + 1)
    [(0, a.length, 0, b.length)] []
  mergeAdjacent (List.insertionSort tripleLe blocks) 0 0 0 ++ [(a.length, b.length, 0)]

/-- get_opcodes body: walk the matching blocks emitting replace / delete /
insert for the gap before each block and equal for the block itself. -/
def getOpcodesAux : List (Nat × Nat × Nat) → Nat → Nat → List (String × Nat × Nat × Nat × Nat)
  | [], _, _ => []
  | (ai, bj, size) :: rest, i, j =>
    let tag := if i < ai ∧ j < bj then "replace"
               else if i < ai then "delete"
               else if j < bj then "insert"
               else ""
    (if tag ≠ "" then [(tag, i, ai, j, bj)] else []) ++
    (if size ≠ 0 then [("equal", ai, ai + size, bj, bj + size)] else []) ++
    getOpcodesAux rest (ai + size) (bj + size)

/-- difflib.SequenceMatcher(None, a, b, autojunk=False).get_opcodes(). -/
def getOpcodes (a b : List Char) : List (String × Nat × Nat × Nat × Nat) :=
  getOpcodesAux (getMatchingBlocks a b) 0 0

/-- handle_text_change opcode scan: replace contributes a delete range and
an insert, delete a range, insert a slice of the client text. -/
def collectEdits (opcodes : List (String × Nat × Nat × Nat × Nat)) (b : List Char) :
    List (Nat × Nat) × List (Nat × List Char) :=
  opcodes.foldl (fun acc oc =>
    if oc.1 = "replace" then
      (acc.1 ++ [(oc.2.1, oc.2.2.1)],
       acc.2 ++ [(oc.2.1, (b.drop oc.2.2.2.1).take (oc.2.2.2.2 - oc.2.2.2.1))])
    else if oc.1 = "delete" then (acc.1 ++ [(oc.2.1, oc.2.2.1)], acc.2)
    else if oc.1 = "insert" then
      (acc.1, acc.2 ++ [(oc.2.1, (b.drop oc.2.2.2.1).take (oc.2.2.2.2 - oc.2.2.2.1))])
    else acc) ([], [])

/-- deletes_to_process.sort(key start, reverse=True). -/
def delDescLe (x y : Nat × Nat) : Prop := y.1 ≤ x.1

instance (x y : Nat × Nat) : Decidable (delDescLe x y) := by
  unfold delDescLe
  infer_instance

/-- inserts_to_process.sort(key index). -/
def insAscLe (x y : Nat × List Char) : Prop := x.1 ≤ y.1

instance (x y : Nat × List Char) : Decidable (insAscLe x y) := by
  unfold insAscLe
  infer_instance

/-- One delete range: for idx in range(end-1, start-1, -1), collect
non-noop delete ops; an IndexError sets error_occurred and stops. -/
def runDeleteIdxs : RGAState → List Operation → List Nat → RGAState × List Operation × Bool
  | st, ops, [] => (st, ops, false)
  | st, ops, idx :: rest =>
    match localDelete st (idx : Int) with
    | (.ok op, st2) =>
      match op with
      | .noop r => runDeleteIdxs st2 ops rest
      | _ => runDeleteIdxs st2 (ops ++ [op]) rest
    | (.error _, st2) => (st2, ops, true)

/-- All delete ranges; an error aborts the remaining ranges (the handler
raises RuntimeError, caught by the outer except, so nothing further runs
and nothing is broadcast, but the already-applied deletes remain). -/
def runDeletes : RGAState → List Operation → List (Nat × Nat) → RGAState × List Operation × Bool
  | st, ops, [] => (st, ops, false)
  | st, ops, r :: rest =>
    match runDeleteIdxs st ops ((List.range' r.1 (r.2 - r.1)).reverse) with
    | (st2, ops2, true) => (st2, ops2, true)
    | (st2, ops2, false) => runDeletes st2 ops2 rest

/-- One insert run: for k, char in enumerate(text), local_insert at
index + k; any exception (IndexError via error_occurred, others via the
outer except) stops all further processing.  `ts` is the wall-clock
reading passed to every _generate_id call. -/
def runInsertChars : RGAState → List Operation → Rat → Nat → Nat → List Char →
    RGAState × List Operation × Bool
  | st, ops, _, _, _, [] => (st, ops, false)
  | st, ops, ts, index, k, ch :: rest =>
    match localInsert st ((index + k : Nat) : Int) (String.singleton ch) ts ts with
    | (.ok op, st2) =>
      match op with
      | .noop r => runInsertChars st2 ops ts index (k + 1) rest
      | _ => runInsertChars st2 (ops ++ [op]) ts index (k + 1) rest
    | (.error _, st2) => (st2, ops, true)

/-- All insert runs. -/
def runInserts : RGAState → List Operation → Rat → List (Nat × List Char) →
    RGAState × List Operation × Bool
  | st, ops, _, [] => (st, ops, false)
  | st, ops, ts, e :: rest =>
    match runInsertChars st ops ts e.1 0 e.2 with
    | (st2, ops2, true) => (st2, ops2, true)
    | (st2, ops2, false) => runInserts st2 ops2 ts rest

/-- Outcome of handle_text_change: final engine state, the generated ops,
whether an exception aborted processing (error emitted, nothing
broadcast), whether the post-check found the final text differing from
the client text (WARNING plus full_state_update), and the ops actually
published/broadcast. -/
structure TextChangeResult where
  state : RGAState
  ops : List Operation
  errored : Bool
  diverged : Bool
  broadcast : List Operation
deriving DecidableEq, Repr

/-- server/main.py handle_text_change (lines 141-203): diff the current
value against the client text, apply deletes in descending start order
(per-range from end-1 down to start), then inserts in ascending order,
then compare the final value with the client text. -/
def handleTextChange (st : RGAState) (clientText : String) (ts : Rat) : TextChangeResult :=
  let serverText := getValue st.elements_by_id
  if clientText = serverText then
    { state := st, ops := [], errored := false, diverged := false, broadcast := [] }
  else
    let edits := collectEdits (getOpcodes serverText.data clientText.data) clientText.data
    match runDeletes st [] (List.insertionSort delDescLe edits.1) with
    | (st2, ops, true) =>
      { state := st2, ops := ops, errored := true, diverged := false, broadcast := [] }
    | (st2, ops, false) =>
      match runInserts st2 ops ts (List.insertionSort insAscLe edits.2) with
      | (st3, ops2, true) =>
        { state := st3, ops := ops2, errored := true, diverged := false, broadcast := [] }
      | (st3, ops2, false) =>
        { state := st3, ops := ops2, errored := false,
          diverged := decide (getValue st3.elements_by_id ≠ clientText),
          broadcast := ops2 }

/-- Server engine (site_id "server") reading "AB": insert 'A' at 0, then
'B' at 1. -/
def c5EngineAB : RGAState :=
  (localInsert (localInsert (rgaInit "server") 0 "A" 1 1).2 1 "B" 2 2).2

/-- C5 failing input: with the server reading "AB" and the client sending
"AXB", the handler generates exactly the right operation - insert 'X' at
index 1 - but applying it leaves get_value() = "ABX", not "AXB", because
the traversal visits siblings in ascending id order; the handler's own
post-check detects the mismatch (diverged: the WARNING plus
full_state_update path at main.py:198-203). -/
theorem C5_text_change_failing_input :
    getValue c5EngineAB.elements_by_id = "AB" ∧
    (handleTextChange c5EngineAB "AXB" 3).errored = false ∧
    getValue (handleTextChange c5EngineAB "AXB" 3).state.elements_by_id = "ABX" ∧
    "ABX" ≠ "AXB" ∧
    (handleTextChange c5EngineAB "AXB" 3).diverged = true := by
  have e1 : (localInsert (rgaInit "server") 0 "A" 1 1).2
      = { site_id := "server",
          elements_by_id :=
            [(START_SENTINEL_ID, sentinelElement),
             ((1, "server"), { id := (1, "server"), value := some "A",
                               predecessor_id := some START_SENTINEL_ID,
                               is_tombstone := false })],
          local_clock := 1 } := by
    simp [localInsert, localInsertPred, getOrderedVisibleElements, rgaInit, generateId,
      initialStore, START_SENTINEL_ID, sentinelElement, alistLookup, alistInsert,
      rgaTraverse_cons_found, rgaTraverse_cons_miss, rgaTraverse_cons_visited, rgaTraverse_nil,
      successorsSorted, storeValues, elemLe, idLe, max_def,
      show "A".length = 1 from by decide]
    norm_num
  have e2 : (localInsert
        { site_id := "server",
          elements_by_id :=
            [(START_SENTINEL_ID, sentinelElement),
             ((1, "server"), { id := (1, "server"), value := some "A",
                               predecessor_id := some START_SENTINEL_ID,
                               is_tombstone := false })],
          local_clock := 1 } 1 "B" 2 2).2
      = { site_id := "server",
          elements_by_id :=
            [(START_SENTINEL_ID, sentinelElement),
             ((1, "server"), { id := (1, "server"), value := some "A",
                               predecessor_id := some START_SENTINEL_ID,
                               is_tombstone := false }),
             ((2, "server"), { id := (2, "server"), value := some "B",
                               predecessor_id := some (1, "server"),
                               is_tombstone := false })],
          local_clock := 2 } := by
    simp [localInsert, localInsertPred, getOrderedVisibleElements, generateId,
      initialStore, START_SENTINEL_ID, sentinelElement, alistLookup, alistInsert,
      rgaTraverse_cons_found, rgaTraverse_cons_miss, rgaTraverse_cons_visited, rgaTraverse_nil,
      successorsSorted, storeValues, elemLe, idLe, max_def, List.insertionSort,
      List.orderedInsert, show "B".length = 1 from by decide]
    norm_num
  have hst : c5EngineAB
      = { site_id := "server",
          elements_by_id :=
            [(START_SENTINEL_ID, sentinelElement),
             ((1, "server"), { id := (1, "server"), value := some "A",
                               predecessor_id := some START_SENTINEL_ID,
                               is_tombstone := false }),
             ((2, "server"), { id := (2, "server"), value := some "B",
                               predecessor_id := some (1, "server"),
                               is_tombstone := false })],
          local_clock := 2 } := by
    unfold c5EngineAB
    rw [e1, e2]
  have hAB : getValue
      [(START_SENTINEL_ID, sentinelElement),
       ((1, "server"), { id := (1, "server"), value := some "A",
                         predecessor_id := some START_SENTINEL_ID,
                         is_tombstone := false }),
       ((2, "server"), { id := (2, "server"), value := some "B",
                         predecessor_id := some (1, "server"),
                         is_tombstone := false })] = "AB" := by
    simp [getValue, getOrderedVisibleElements,
      START_SENTINEL_ID, sentinelElement, alistLookup,
      rgaTraverse_cons_found, rgaTraverse_cons_miss, rgaTraverse_cons_visited, rgaTraverse_nil,
      successorsSorted, storeValues, elemLe, idLe, List.insertionSort, List.orderedInsert]
    decide
  have e3 : localInsert
      { site_id := "server",
        elements_by_id :=
          [(START_SENTINEL_ID, sentinelElement),
           ((1, "server"), { id := (1, "server"), value := some "A",
                             predecessor_id := some START_SENTINEL_ID,
                             is_tombstone := false }),
           ((2, "server"), { id := (2, "server"), value := some "B",
                             predecessor_id := some (1, "server"),
                             is_tombstone := false })],
        local_clock := 2 } 1 "X" 3 3
      = (.ok (.insert { id := (3, "server"), value := some "X",
                        predecessor_id := some (1, "server"), is_tombstone := false }),
         { site_id := "server",
           elements_by_id :=
             [(START_SENTINEL_ID, sentinelElement),
              ((1, "server"), { id := (1, "server"), value := some "A",
                                predecessor_id := some START_SENTINEL_ID,
                                is_tombstone := false }),
              ((2, "server"), { id := (2, "server"), value := some "B",
                                predecessor_id := some (1, "server"),
                                is_tombstone := false }),
              ((3, "server"), { id := (3, "server"), value := some "X",
                                predecessor_id := some (1, "server"),
                                is_tombstone := false })],
           local_clock := 3 }) := by
    simp [localInsert, localInsertPred, getOrderedVisibleElements, generateId,
      initialStore, START_SENTINEL_ID, sentinelElement, alistLookup, alistInsert,
      rgaTraverse_cons_found, rgaTraverse_cons_miss, rgaTraverse_cons_visited, rgaTraverse_nil,
      successorsSorted, storeValues, elemLe, idLe, max_def, List.insertionSort,
      List.orderedInsert, show "X".length = 1 from by decide]
    norm_num
  have hABX : getValue
      [(START_SENTINEL_ID, sentinelElement),
       ((1, "server"), { id := (1, "server"), value := some "A",
                         predecessor_id := some START_SENTINEL_ID,
                         is_tombstone := false }),
       ((2, "server"), { id := (2, "server"), value := some "B",
                         predecessor_id := some (1, "server"),
                         is_tombstone := false }),
       ((3, "server"), { id := (3, "server"), value := some "X",
                         predecessor_id := some (1, "server"),
                         is_tombstone := false })] = "ABX" := by
    simp [getValue, getOrderedVisibleElements,
      START_SENTINEL_ID, sentinelElement, alistLookup,
      rgaTraverse_cons_found, rgaTraverse_cons_miss, rgaTraverse_cons_visited, rgaTraverse_nil,
      successorsSorted, storeValues, elemLe, idLe, List.insertionSort, List.orderedInsert,
      show ((2 : Rat) < 3) from by norm_num]
    decide
  have hopc : getOpcodes "AB".data "AXB".data
      = [("equal", 0, 1, 0, 1), ("insert", 1, 1, 1, 2), ("equal", 1, 2, 2, 3)] := by
    rfl
  have hedits : collectEdits
      [("equal", 0, 1, 0, 1), ("insert", 1, 1, 1, 2), ("equal", 1, 2, 2, 3)] "AXB".data
      = ([], [(1, ['X'])]) := by
    rfl
  have hrun : handleTextChange c5EngineAB "AXB" 3
      = { state :=
            { site_id := "server",
              elements_by_id :=
                [(START_SENTINEL_ID, sentinelElement),
                 ((1, "server"), { id := (1, "server"), value := some "A",
                                   predecessor_id := some START_SENTINEL_ID,
                                   is_tombstone := false }),
                 ((2, "server"), { id := (2, "server"), value := some "B",
                                   predecessor_id := some (1, "server"),
                                   is_tombstone := false }),
                 ((3, "server"), { id := (3, "server"), value := some "X",
                                   predecessor_id := some (1, "server"),
                                   is_tombstone := false })],
              local_clock := 3 },
          ops := [.insert { id := (3, "server"), value := some "X",
                            predecessor_id := some (1, "server"), is_tombstone := false }],
          errored := false,
          diverged := true,
          broadcast := [.insert { id := (3, "server"), value := some "X",
                                  predecessor_id := some (1, "server"),
                                  is_tombstone := false }] } := by
    rw [hst]
    simp only [handleTextChange, hAB, hopc, hedits]
    rw [if_neg (by decide)]
    simp only [List.insertionSort, List.orderedInsert, runDeletes, runInserts,
      runInsertChars, show String.singleton 'X' = "X" from rfl]
    norm_num
    rw [e3]
    simp only [runInsertChars, hABX]
    decide
  refine ⟨?_, ?_, ?_, by decide, ?_⟩
  · rw [hst]
    exact hAB
  · rw [hrun]
  · rw [hrun]
    exact hABX
  · rw [hrun]

end WEditor
